import Mathlib

/-!
Shallow embedding of the `atticlab-js-base` transaction library core
(`src/operation.js`, `src/account.js`) together with models of its external
collaborators (the StrKey codec, the `bignumber.js` arbitrary-precision
decimal library, JavaScript primitive values).  Definitions are translated
from the JavaScript source; the ones whose source file is not part of the
repository snapshot are explicitly marked as modelled from the spec.
-/

deriving instance DecidableEq for Except

namespace AtticBase

/-! ## JavaScript value model

A JavaScript number is either a finite (IEEE-double) value, one of the two
infinities, or NaN.  The embedding uses exact rationals for finite values;
double rounding never matters on the inputs exercised by this library
(small integers and short decimal strings).  -/

inductive JSNumber where
  | fin (q : ℚ)
  | posInf
  | negInf
  | nan
deriving DecidableEq, Repr

/-- A JavaScript value as the operation builders observe it: a string, a
number, a Node `Buffer` (byte array), `null`, `undefined`, or some other
object (e.g. `{}` / `[]`, which only ever fail the validators). -/
inductive JSVal where
  | str (s : String)
  | num (n : JSNumber)
  | buf (bytes : List Nat)
  | null
  | undef
  | obj
deriving DecidableEq, Repr

/-- JavaScript truthiness of a value (`if (v)`): `""`, `0`, `NaN`, `null`
and `undefined` are falsy, every object (including an empty Buffer) is
truthy. -/
def truthy : JSVal → Bool
  | .str s => s ≠ ""
  | .num (.fin q) => q ≠ 0
  | .num .nan => false
  | .num _ => true
  | .buf _ => true
  | .null => false
  | .undef => false
  | .obj => true

/-- lodash `isString`. -/
def isStringJS : JSVal → Bool
  | .str _ => true
  | _ => false

/-! ## Model of the external `bignumber.js` decimal library

`new BigNumber(string)` parses an exact decimal.  A finite value is kept as
a sign, a natural mantissa and a decimal scale: the represented number is
`(-1)^neg * num / 10^scale`.  The constructor model accepts an optional
sign, a plain decimal numeral with an optional fraction, an optional
decimal exponent, and the literals `Infinity` / `NaN`; other inputs
(including the base-prefix forms of the real library, which this repository
never feeds it) fail, which models the constructor throwing. -/

structure BigNum where
  neg : Bool
  num : Nat
  scale : Nat
deriving DecidableEq, Repr

inductive BigValue where
  | fin (b : BigNum)
  | posInf
  | negInf
  | nan
deriving DecidableEq, Repr

/-- Numeric value of a list of decimal digit characters (most significant
first). -/
def digitsToNat (ds : List Char) : Nat :=
  ds.foldl (fun a c => a * 10 + (c.toNat - 48)) 0

/-- Parse an optional leading sign; returns `(negative, rest)`. -/
def parseSign : List Char → Bool × List Char
  | '-' :: r => (true, r)
  | '+' :: r => (false, r)
  | cs => (false, cs)

/-- Parse the exponent tail `digits` (after `e`/`E` and an optional sign);
fails unless at least one digit consumes the whole remainder. -/
def parseExpTail (cs : List Char) : Option Int :=
  let (eneg, cs1) := parseSign cs
  let ds := cs1.takeWhile Char.isDigit
  let rest := cs1.dropWhile Char.isDigit
  if ds.length = 0 ∨ rest ≠ [] then none
  else some ((if eneg then -1 else 1) * (digitsToNat ds : Int))

/-- Combine a mantissa, a fractional length and a decimal exponent into a
normalized `BigNum` (non-negative scale). -/
def mkBigNum (neg : Bool) (m : Nat) (scale0 : Nat) (e : Int) : BigNum :=
  let net : Int := (scale0 : Int) - e
  if net ≤ 0 then { neg := neg, num := m * 10 ^ (-net).toNat, scale := 0 }
  else { neg := neg, num := m, scale := net.toNat }

/-- Model of the `BigNumber` constructor on a string: `none` models the
constructor throwing on an unparseable input. -/
def parseBigNumber (s : String) : Option BigValue :=
  let (neg, cs) := parseSign s.toList
  if cs = "Infinity".toList then some (if neg then .negInf else .posInf)
  else if cs = "NaN".toList then some .nan
  else
    let intDs := cs.takeWhile Char.isDigit
    let rest1 := cs.dropWhile Char.isDigit
    let (fracDs, rest2) :=
      match rest1 with
      | '.' :: r => (r.takeWhile Char.isDigit, r.dropWhile Char.isDigit)
      | _ => ([], rest1)
    if intDs.length + fracDs.length = 0 then none
    else
      let m := digitsToNat intDs * 10 ^ fracDs.length + digitsToNat fracDs
      match rest2 with
      | [] => some (.fin (mkBigNum neg m fracDs.length 0))
      | 'e' :: r =>
        match parseExpTail r with
        | some e => some (.fin (mkBigNum neg m fracDs.length e))
        | none => none
      | 'E' :: r =>
        match parseExpTail r with
        | some e => some (.fin (mkBigNum neg m fracDs.length e))
        | none => none
      | _ => none

/-- `BigNumber.isZero`. -/
def bnIsZero : BigValue → Bool
  | .fin b => b.num == 0
  | _ => false

/-- `BigNumber.isNegative` (sign test; `-0` counts as negative, as in the
library). -/
def bnIsNegative : BigValue → Bool
  | .fin b => b.neg
  | .negInf => true
  | _ => false

/-- Number of decimal places after stripping trailing zeros: `dpAux scale
num` is the scale of `num / 10^scale` in lowest decimal terms. -/
def dpAux : Nat → Nat → Nat
  | 0, _ => 0
  | s + 1, n => if n % 10 = 0 then dpAux s (n / 10) else s + 1

/-- `BigNumber.decimalPlaces` (`null`, modelled as `0`, for non-finite
values; `null > 7` is false in JavaScript just as `0 > 7` is). -/
def bnDecimalPlaces : BigValue → Nat
  | .fin b => dpAux b.scale b.num
  | _ => 0

/-- `BigNumber.isFinite`. -/
def bnIsFinite : BigValue → Bool
  | .fin _ => true
  | _ => false

/-- `BigNumber.isNaN`. -/
def bnIsNaN : BigValue → Bool
  | .nan => true
  | _ => false

/-! ## `Operation.isValidAmount` (src/operation.js:543) -/

/-- `const ONE = 10000000` — the fixed-point scale factor. -/
def ONE : Nat := 10000000

/-- `const MAX_INT64 = '9223372036854775807'`. -/
def MAX_INT64 : Nat := 9223372036854775807

/-- `amount.times(ONE).greaterThan(MAX_INT64)`: a negative finite value is
never greater, `Infinity` always is, NaN comparisons are false. -/
def bnTimesOneGtMaxInt64 : BigValue → Bool
  | .fin b => !b.neg && decide (b.num * ONE > MAX_INT64 * 10 ^ b.scale)
  | .posInf => true
  | _ => false

/-- `Operation.isValidAmount(value, allowZero)`, translated check by check
from src/operation.js lines 543-586 (the `try { new BigNumber(value) }`
wrapper becomes the `none` branch of the parser). -/
def isValidAmount (value : JSVal) (allowZero : Bool := false) : Bool :=
  match value with
  | .str s =>
    match parseBigNumber s with
    | none => false
    | some amount =>
      if !allowZero && bnIsZero amount then false
      else if bnIsNegative amount then false
      else if bnTimesOneGtMaxInt64 amount then false
      else if bnDecimalPlaces amount > 7 then false
      else if !bnIsFinite amount then false
      else if bnIsNaN amount then false
      else true
  | _ => false

/-- The spec's characterization of a valid amount (spec §4.2), written from
its words: a string representing a non-negative decimal (a numeral without
a minus sign) with at most 7 fractional digits, whose value times the scale
factor is at most `9223372036854775807`, finite and non-NaN, and non-zero
unless `allowZero`. -/
def specValidAmount (value : JSVal) (allowZero : Bool) : Bool :=
  match value with
  | .str s =>
    match parseBigNumber s with
    | some (.fin b) =>
      !b.neg
        && decide (dpAux b.scale b.num ≤ 7)
        && decide (b.num * ONE ≤ MAX_INT64 * 10 ^ b.scale)
        && (allowZero || b.num != 0)
    | _ => false
  | _ => false

/-! ## StrKey codec

`src/strkey.js` is not part of the repository snapshot (only its callers
are), so the codec is modelled from the spec (§4.1 / §6): a 1-byte version
tag, the payload, and a 2-byte CRC-16/XMODEM checksum over
`[version‖payload]`, rendered as unpadded base-32 over the RFC 4648
alphabet.  The checksum is appended little-endian and the account-id
version byte is 48, both checked against the concrete addresses appearing
in the repository's tests. -/

/-- The eight bits of a byte, most significant first. -/
def byteToBits (n : Nat) : List Bool :=
  [decide (n / 128 % 2 = 1), decide (n / 64 % 2 = 1), decide (n / 32 % 2 = 1),
   decide (n / 16 % 2 = 1), decide (n / 8 % 2 = 1), decide (n / 4 % 2 = 1),
   decide (n / 2 % 2 = 1), decide (n % 2 = 1)]

/-- The five bits of a base-32 digit, most significant first. -/
def valToBits (n : Nat) : List Bool :=
  [decide (n / 16 % 2 = 1), decide (n / 8 % 2 = 1), decide (n / 4 % 2 = 1),
   decide (n / 2 % 2 = 1), decide (n % 2 = 1)]

/-- Value of a bit list, most significant first. -/
def bitsToNat (l : List Bool) : Nat :=
  l.foldl (fun a b => 2 * a + (if b then 1 else 0)) 0

/-- Bit stream of a byte string. -/
def bytesToBits (ns : List Nat) : List Bool :=
  (ns.map byteToBits).flatten

/-- Bit stream of a base-32 digit string. -/
def valsToBits (ns : List Nat) : List Bool :=
  (ns.map valToBits).flatten

/-- Regroup a bit stream into bytes (a trailing group shorter than 8 bits
is dropped; decoding requires that no such group exists). -/
def bitsToBytes : List Bool → List Nat
  | a :: b :: c :: d :: e :: f :: g :: h :: rest =>
    bitsToNat [a, b, c, d, e, f, g, h] :: bitsToBytes rest
  | _ => []

/-- Regroup a bit stream into base-32 digits. -/
def bitsToVals : List Bool → List Nat
  | a :: b :: c :: d :: e :: rest => bitsToNat [a, b, c, d, e] :: bitsToVals rest
  | _ => []

/-- RFC 4648 base-32 alphabet. -/
def base32Alphabet : List Char := "ABCDEFGHIJKLMNOPQRSTUVWXYZ234567".toList

/-- Base-32 digit of a character, `none` if it is not in the alphabet. -/
def charToVal (c : Char) : Option Nat :=
  if base32Alphabet.indexOf c < 32 then some (base32Alphabet.indexOf c) else none

/-- Character of a base-32 digit. -/
def valToChar (v : Nat) : Char := base32Alphabet.getD v 'A'

/-- Map every character of a candidate base-32 string to its digit, failing
on the first foreign character. -/
def mapCharsToVals : List Char → Option (List Nat)
  | [] => some []
  | c :: cs =>
    match charToVal c, mapCharsToVals cs with
    | some v, some vs => some (v :: vs)
    | _, _ => none

/-- Modelled from the spec: unpadded base-32 rendering of a byte string
(the bit stream is zero-padded to a multiple of five bits; on the 35-byte
strings used here the padding is empty). -/
def base32Encode (bytes : List Nat) : List Char :=
  let bits := bytesToBits bytes
  let padded := bits ++ List.replicate ((5 - bits.length % 5) % 5) false
  (bitsToVals padded).map valToChar

/-- Modelled from the spec: base-32 decoding; fails on a foreign character
or when the digit stream does not carry a whole number of bytes. -/
def base32Decode (cs : List Char) : Option (List Nat) :=
  match mapCharsToVals cs with
  | none => none
  | some vals =>
    if (5 * vals.length) % 8 = 0 then some (bitsToBytes (valsToBits vals))
    else none

/-- One shift step of CRC-16/XMODEM (polynomial 0x1021). -/
def crc16Shift : Nat → Nat → Nat
  | crc, 0 => crc
  | crc, k + 1 =>
    let c := if crc / 32768 % 2 = 1 then ((crc * 2) ^^^ 4129) % 65536
             else (crc * 2) % 65536
    crc16Shift c k

/-- Fold one byte into a CRC-16/XMODEM state. -/
def crc16Byte (crc b : Nat) : Nat := crc16Shift (crc ^^^ b * 256) 8

/-- Modelled from the spec: the CRC-16/XMODEM checksum of a byte string
(initial value 0). -/
def crc16 (bytes : List Nat) : Nat := bytes.foldl crc16Byte 0

/-- The two checksum bytes as appended to the payload (little-endian). -/
def checksumBytes (n : Nat) : List Nat := [n % 256, n / 256 % 256]

/-- Version byte of a StrKey-encoded ed25519 account id (renders as a
leading `G`). -/
def accountIdVersionByte : Nat := 48

/-- Modelled from the spec: `strkey.encodeCheck` — prepend the version
byte, append the checksum, render in base-32. -/
def encodeCheck (version : Nat) (payload : List Nat) : String :=
  let data := version :: payload
  ⟨base32Encode (data ++ checksumBytes (crc16 data))⟩

/-- Modelled from the spec: `strkey.decodeCheck` — base-32 decode, verify
the version byte and the checksum, return the payload. -/
def decodeCheck (version : Nat) (s : String) : Option (List Nat) :=
  match base32Decode s.toList with
  | none => none
  | some bytes =>
    if bytes.length < 3 then none
    else
      match bytes.take (bytes.length - 2) with
      | v :: payload =>
        if v = version ∧
            bytes.drop (bytes.length - 2) =
              checksumBytes (crc16 (bytes.take (bytes.length - 2))) then
          some payload
        else none
      | [] => none

/-- `StrKey.isValidEd25519PublicKey`: decodes and additionally requires a
32-byte payload (spec §4.1: public keys/hashes are 32 bytes). -/
def isValidEd25519PublicKey (s : String) : Bool :=
  match decodeCheck accountIdVersionByte s with
  | some payload => payload.length == 32
  | none => false

/-- `StrKey.decodeEd25519PublicKey`, used by the builders only after a
successful validity check (the `[]` fallback models the unreachable throwing
branch). -/
def decodeEd25519PublicKey (s : String) : List Nat :=
  (decodeCheck accountIdVersionByte s).getD []

/-- `StrKey.encodeEd25519PublicKey`. -/
def encodeEd25519PublicKey (bytes : List Nat) : String :=
  encodeCheck accountIdVersionByte bytes

/-! ## Amount codec (`Operation._toXDRAmount` / `Operation._fromXDRAmount`) -/

/-- `Operation._toXDRAmount`: `new BigNumber(value).mul(ONE)` rendered into
a 64-bit wire integer.  The builders only call it on strings that passed
`isValidAmount`, so the value is a non-negative integer; the floor division
is exact there. -/
def toXDRAmount (value : String) : Int :=
  match parseBigNumber value with
  | some (.fin b) => (if b.neg then -1 else 1) * ((b.num * ONE / 10 ^ b.scale : Nat) : Int)
  | _ => 0

/-- Left-pad a numeral with zeros to a given width. -/
def padZeros (s : String) (k : Nat) : String :=
  ⟨List.replicate (k - s.length) '0'⟩ ++ s

/-- Exact decimal rendering of `num / 10^scale` with trailing fractional
zeros stripped — the minimal exact decimal string of spec §4.2 (the
underlying bignum library's exponential-notation threshold for magnitudes
below 1e-6 is not modelled). -/
def renderScaled (num scale : Nat) : String :=
  let d := dpAux scale num
  let m := num / 10 ^ (scale - d)
  if d = 0 then Nat.repr m
  else Nat.repr (m / 10 ^ d) ++ "." ++ padZeros (Nat.repr (m % 10 ^ d)) d

/-- `Operation._fromXDRAmount`: `new BigNumber(value).div(ONE).toString()`. -/
def fromXDRAmount (value : Int) : String :=
  if value < 0 then "-" ++ renderScaled value.natAbs 7
  else renderScaled value.natAbs 7

/-- The canonical rendering of an amount string: what the decimal value it
denotes prints as.  Decoding a built operation yields amounts in this
form. -/
def canonicalAmount (s : String) : String :=
  match parseBigNumber s with
  | some (.fin b) => (if b.neg then "-" else "") ++ renderScaled b.num b.scale
  | _ => ""

/-! ## JavaScript numeric helpers used by the builders -/

/-- JavaScript `parseFloat`: parses the longest numeric prefix (optional
sign, decimal digits with an optional fraction, or an `Infinity` literal)
and returns NaN when there is none.  Exponent suffixes and leading
whitespace, which the repository never feeds it, are not modelled. -/
def parseFloatJS (s : String) : JSNumber :=
  let (neg, cs) := parseSign s.toList
  if cs.take 8 = "Infinity".toList then if neg then .negInf else .posInf
  else
    let intDs := cs.takeWhile Char.isDigit
    let rest1 := cs.dropWhile Char.isDigit
    let fracDs :=
      match rest1 with
      | '.' :: r => r.takeWhile Char.isDigit
      | _ => []
    if intDs.length + fracDs.length = 0 then .nan
    else
      .fin (mkRat
        ((if neg then -1 else 1) *
          (digitsToNat intDs * 10 ^ fracDs.length + digitsToNat fracDs : Nat) : Int)
        (10 ^ fracDs.length))

/-- `Operation._checkUnsignedIntValue(name, value, isValidFunction)`
(src/operation.js:627): `undefined` passes through, strings go through
`parseFloat`, then non-numbers, non-finite and fractional values throw,
then negative values throw, then the optional extra check runs.  The
`weightCheckFunction` of `setOptions`, which throws its own range error, is
modelled by the predicate argument (the failure is reported with the
generic message; only which error, not whether one occurs, differs). -/
def checkUnsignedIntValue (name : String) (value : JSVal)
    (isValidFunction : Option (ℚ → Bool) := none) : Except String (Option ℚ) :=
  match value with
  | .undef => .ok none
  | _ =>
    let v : Option JSNumber :=
      match value with
      | .str s => some (parseFloatJS s)
      | .num n => some n
      | _ => none
    match v with
    | some (.fin q) =>
      if q.den ≠ 1 then .error (name ++ " value is invalid")
      else if q < 0 then .error (name ++ " value must be unsigned")
      else
        match isValidFunction with
        | none => .ok (some q)
        | some f => if f q then .ok (some q) else .error (name ++ " value is invalid")
    | _ => .error (name ++ " value is invalid")

/-- The `weightCheckFunction` closure of `Operation.setOptions`
(src/operation.js:217): accepts values between 0 and 255. -/
def weightCheckFunction (q : ℚ) : Bool := 0 ≤ q && q ≤ 255

/-- UTF-8 bytes of a character (what `new Buffer(string)` produces per
character). -/
def utf8Bytes (c : Char) : List Nat :=
  let n := c.toNat
  if n < 128 then [n]
  else if n < 2048 then [192 + n / 64, 128 + n % 64]
  else if n < 65536 then [224 + n / 4096, 128 + n / 64 % 64, 128 + n % 64]
  else [240 + n / 262144, 128 + n / 4096 % 64, 128 + n / 64 % 64, 128 + n % 64]

/-- `new Buffer(string)`: the UTF-8 bytes of a string. -/
def jsUtf8 (s : String) : List Nat := (s.toList.map utf8Bytes).flatten

/-- Value of a hexadecimal digit. -/
def hexDigitVal (c : Char) : Option Nat :=
  if c.isDigit then some (c.toNat - 48)
  else if 'a' ≤ c ∧ c ≤ 'f' then some (c.toNat - 87)
  else if 'A' ≤ c ∧ c ≤ 'F' then some (c.toNat - 70)
  else none

/-- `Buffer.from(s, "hex")`: decode pairs of hex digits, stopping at the
first invalid pair or a trailing odd digit. -/
def hexDecode : List Char → List Nat
  | a :: b :: rest =>
    match hexDigitVal a, hexDigitVal b with
    | some x, some y => (16 * x + y) :: hexDecode rest
    | _, _ => []
  | _ => []

/-- `Buffer.from(string, "hex")` on a `String`. -/
def hexDecodeStr (s : String) : List Nat := hexDecode s.toList

/-! ## The canonical operation records (the `xdr.*` values the builders
produce)

The generated schema codec is an out-of-scope collaborator; the builders
feed it well-typed attribute records, which are modelled directly.  Amounts
are carried as 64-bit wire integers (`Int`), addresses as raw 32-byte
payloads. -/

/-- `xdr.SignerKey`, a union over the three key variants. -/
inductive XdrSignerKey where
  | ed25519 (k : List Nat)
  | preAuthTx (k : List Nat)
  | hashX (k : List Nat)
deriving DecidableEq, Repr

/-- `xdr.Signer` as built by `setOptions`: the key, the checked weight
(`undefined` allowed) and the raw signerType tag. -/
structure XdrSigner where
  key : XdrSignerKey
  weight : Option ℚ
  signerType : JSVal
deriving DecidableEq, Repr

/-- Attribute record of `xdr.SetOptionsOp`. -/
structure XdrSetOptionsOp where
  inflationDest : Option (List Nat) := none
  clearFlags : Option ℚ := none
  setFlags : Option ℚ := none
  masterWeight : Option ℚ := none
  lowThreshold : Option ℚ := none
  medThreshold : Option ℚ := none
  highThreshold : Option ℚ := none
  homeDomain : JSVal := .undef
  signer : Option XdrSigner := none
deriving DecidableEq, Repr

/-- `xdr.OperationBody`, a union over the ten operation kinds of this
repository. -/
inductive XdrOperationBody where
  | createAccount (destination : List Nat) (startingBalance : Int) (accountType : ℚ)
  | emission (destination : List Nat) (amount : Int)
  | settlement (amount : Int)
  | payment (destination : List Nat) (asset : Unit) (amount : Int)
  | setOption (op : XdrSetOptionsOp)
  | accountMerge (destination : List Nat)
  | manageDatum (dataName : String) (dataValue : Option (List Nat))
  | setFee (baseFee : JSVal)
  | spendFee (destination : List Nat) (amount : Int)
  | restrictAccount (account : List Nat) (clearFlags : Option ℚ) (setFlags : Option ℚ)
deriving DecidableEq, Repr

/-- `xdr.Operation`: an optional source-account override plus the body. -/
structure XdrOperation where
  sourceAccount : Option (List Nat) := none
  body : XdrOperationBody
deriving DecidableEq, Repr

/-! ## Operation builders (src/operation.js) -/

/-- `Operation.constructAmountRequirementsError`. -/
def constructAmountRequirementsError (arg : String) : String :=
  arg ++ " argument must be of type String, represent a positive number and have at most 7 digits after the decimal"

/-- Modelled from the spec: the recognized account-type tags of the
generated schema's `AccountType` enum (`xdr.AccountType._byValue`), a
finite set of small integer tags; the tag values themselves are not in the
snapshot, so tags 0–3 stand for the enum members.  This is
`Operation._isValidAccountType`. -/
def isValidAccountType : JSVal → Bool
  | .num (.fin q) => q == 0 || q == 1 || q == 2 || q == 3
  | _ => false

/-- Modelled from the spec: the recognized signer-type tags of the
generated schema's `SignerType` enum (`xdr.SignerType._byValue`), like
`isValidAccountType`.  This is `Operation._isValidSignerType`. -/
def isValidSignerType : JSVal → Bool
  | .num (.fin q) => q == 0 || q == 1 || q == 2 || q == 3
  | _ => false

/-- Numeric tag carried by a validated enum value. -/
def jsNumValue : JSVal → ℚ
  | .num (.fin q) => q
  | _ => 0

/-- Wire amount of a validated amount value (always a string there). -/
def toXDRAmountJS : JSVal → Int
  | .str s => toXDRAmount s
  | _ => 0

/-- The optional-address pattern shared by `setSourceAccount` and the
`inflationDest` block of `setOptions`: an absent or falsy value sets
nothing, an invalid one throws, a valid one is decoded. -/
def checkOptionalAddress (errMsg : String) (a : Option String) :
    Except String (Option (List Nat)) :=
  match a with
  | none => .ok none
  | some s =>
    if s = "" then .ok none
    else if isValidEd25519PublicKey s then .ok (some (decodeEd25519PublicKey s))
    else .error errMsg

/-- `Operation.setSourceAccount` (src/operation.js:434). -/
def setSourceAccount (source : Option String) : Except String (Option (List Nat)) :=
  checkOptionalAddress "Source address is invalid" source

/-- Options of `Operation.createAccount`. -/
structure CreateAccountOpts where
  destination : String
  startingBalance : JSVal
  accountType : JSVal
  source : Option String := none
deriving DecidableEq, Repr

/-- `Operation.createAccount` (src/operation.js:73). -/
def createAccount (opts : CreateAccountOpts) : Except String XdrOperation :=
  if !isValidEd25519PublicKey opts.destination then .error "destination is invalid"
  else if !isValidAmount opts.startingBalance true then
    .error (constructAmountRequirementsError "startingBalance")
  else if opts.accountType = .undef || !isValidAccountType opts.accountType then
    .error "Must provide an accountType for a create user operation"
  else
    match setSourceAccount opts.source with
    | .error e => .error e
    | .ok src =>
      .ok { sourceAccount := src,
            body := .createAccount (decodeEd25519PublicKey opts.destination)
              (toXDRAmountJS opts.startingBalance) (jsNumValue opts.accountType) }

/-- Options of the destination-plus-amount builders (`emission`, `payment`,
`spendFee`). -/
structure PaymentOpts where
  destination : String
  amount : JSVal
  source : Option String := none
deriving DecidableEq, Repr

/-- `Operation.emission` (src/operation.js:105). -/
def emission (opts : PaymentOpts) : Except String XdrOperation :=
  if !isValidEd25519PublicKey opts.destination then .error "destination is invalid"
  else if !isValidAmount opts.amount then .error (constructAmountRequirementsError "amount")
  else
    match setSourceAccount opts.source with
    | .error e => .error e
    | .ok src =>
      .ok { sourceAccount := src,
            body := .emission (decodeEd25519PublicKey opts.destination) (toXDRAmountJS opts.amount) }

/-- Options of `Operation.settlement`. -/
structure SettlementOpts where
  amount : JSVal
  source : Option String := none
deriving DecidableEq, Repr

/-- `Operation.settlement` (src/operation.js:132). -/
def settlement (opts : SettlementOpts) : Except String XdrOperation :=
  if !isValidAmount opts.amount then .error (constructAmountRequirementsError "amount")
  else
    match setSourceAccount opts.source with
    | .error e => .error e
    | .ok src => .ok { sourceAccount := src, body := .settlement (toXDRAmountJS opts.amount) }

/-- `Operation.payment` (src/operation.js:157); the asset attribute is
always `Asset.native()`. -/
def payment (opts : PaymentOpts) : Except String XdrOperation :=
  if !isValidEd25519PublicKey opts.destination then .error "destination is invalid"
  else if !isValidAmount opts.amount then .error (constructAmountRequirementsError "amount")
  else
    match setSourceAccount opts.source with
    | .error e => .error e
    | .ok src =>
      .ok { sourceAccount := src,
            body := .payment (decodeEd25519PublicKey opts.destination) () (toXDRAmountJS opts.amount) }

/-- `Operation.spendFee` (src/operation.js:361). -/
def spendFee (opts : PaymentOpts) : Except String XdrOperation :=
  if !isValidEd25519PublicKey opts.destination then .error "destination is invalid"
  else if !isValidAmount opts.amount then .error (constructAmountRequirementsError "amount")
  else
    match setSourceAccount opts.source with
    | .error e => .error e
    | .ok src =>
      .ok { sourceAccount := src,
            body := .spendFee (decodeEd25519PublicKey opts.destination) (toXDRAmountJS opts.amount) }

/-- The signer sub-object of the `setOptions` options. -/
structure SignerOpts where
  ed25519PublicKey : JSVal := .undef
  sha256Hash : JSVal := .undef
  preAuthTx : JSVal := .undef
  weight : JSVal := .undef
  signerType : JSVal := .undef
deriving DecidableEq, Repr

/-- Options of `Operation.setOptions`. -/
structure SetOptionsOpts where
  inflationDest : Option String := none
  clearFlags : JSVal := .undef
  setFlags : JSVal := .undef
  masterWeight : JSVal := .undef
  lowThreshold : JSVal := .undef
  medThreshold : JSVal := .undef
  highThreshold : JSVal := .undef
  signer : Option SignerOpts := none
  homeDomain : JSVal := .undef
  source : Option String := none
deriving DecidableEq, Repr

/-- The `ed25519PublicKey` branch of the signer block
(src/operation.js:246): if the field is truthy it must be a valid address;
returns the key (if any) and the `setValues` contribution. -/
def processEd25519 (s : SignerOpts) : Except String (Option XdrSignerKey × Nat) :=
  if truthy s.ed25519PublicKey then
    match s.ed25519PublicKey with
    | .str e =>
      if isValidEd25519PublicKey e then .ok (some (.ed25519 (decodeEd25519PublicKey e)), 1)
      else .error "signer.ed25519PublicKey is invalid."
    | _ => .error "signer.ed25519PublicKey is invalid."
  else .ok (none, 0)

/-- The `preAuthTx` branch of the signer block (src/operation.js:255): a
truthy hex string is first overwritten in place with its decoded buffer,
then the field must be a 32-byte buffer.  Returns the key contribution and
the signer record as observed afterwards. -/
def processPreAuthTx (s : SignerOpts) : Except String (Option XdrSignerKey × Nat) × SignerOpts :=
  if truthy s.preAuthTx then
    match s.preAuthTx with
    | .str hx =>
      if (hexDecodeStr hx).length = 32 then
        (.ok (some (.preAuthTx (hexDecodeStr hx)), 1), { s with preAuthTx := .buf (hexDecodeStr hx) })
      else (.error "signer.preAuthTx must be 32 bytes Buffer.", { s with preAuthTx := .buf (hexDecodeStr hx) })
    | .buf b =>
      if b.length = 32 then (.ok (some (.preAuthTx b), 1), s)
      else (.error "signer.preAuthTx must be 32 bytes Buffer.", s)
    | _ => (.error "signer.preAuthTx must be 32 bytes Buffer.", s)
  else (.ok (none, 0), s)

/-- The `sha256Hash` branch of the signer block (src/operation.js:267),
identical in shape to the `preAuthTx` branch. -/
def processSha256 (s : SignerOpts) : Except String (Option XdrSignerKey × Nat) × SignerOpts :=
  if truthy s.sha256Hash then
    match s.sha256Hash with
    | .str hx =>
      if (hexDecodeStr hx).length = 32 then
        (.ok (some (.hashX (hexDecodeStr hx)), 1), { s with sha256Hash := .buf (hexDecodeStr hx) })
      else (.error "signer.sha256Hash must be 32 bytes Buffer.", { s with sha256Hash := .buf (hexDecodeStr hx) })
    | .buf b =>
      if b.length = 32 then (.ok (some (.hashX b), 1), s)
      else (.error "signer.sha256Hash must be 32 bytes Buffer.", s)
    | _ => (.error "signer.sha256Hash must be 32 bytes Buffer.", s)
  else (.ok (none, 0), s)

/-- The signer block of `Operation.setOptions` (src/operation.js:237-284).
Returns the built `xdr.Signer` together with the signer options record as
the caller observes it afterwards: a `preAuthTx` or `sha256Hash` given as a
hex string is overwritten in place with the decoded buffer before it is
validated, so the record is returned possibly mutated — also on the error
paths. -/
def processSigner (signer : SignerOpts) : Except String XdrSigner × SignerOpts :=
  match checkUnsignedIntValue "signer.weight" signer.weight (some weightCheckFunction) with
  | .error e => (.error e, signer)
  | .ok weight =>
    if signer.signerType = .undef || !isValidSignerType signer.signerType then
      (.error "Must provide a valid signerType", signer)
    else
      match processEd25519 signer with
      | .error e => (.error e, signer)
      | .ok (key1, c1) =>
        match processPreAuthTx signer with
        | (.error e, signer2) => (.error e, signer2)
        | (.ok (key2, c2), signer2) =>
          match processSha256 signer2 with
          | (.error e, signer3) => (.error e, signer3)
          | (.ok (key3, c3), signer3) =>
            if c1 + c2 + c3 ≠ 1 then
              (.error "Signer object must contain exactly one of signer.ed25519PublicKey, signer.sha256Hash, signer.preAuthTx.", signer3)
            else
              match key3.orElse fun _ => key2.orElse fun _ => key1 with
              | some key =>
                (.ok { key := key, weight := weight, signerType := signer.signerType }, signer3)
              | none =>
                (.error "Signer object must contain exactly one of signer.ed25519PublicKey, signer.sha256Hash, signer.preAuthTx.", signer3)

/-- The signer step of `setOptions` lifted to the whole options record
(mutations of the signer sub-object land back in the record). -/
def processSignerOpt (opts : SetOptionsOpts) :
    Except String (Option XdrSigner) × SetOptionsOpts :=
  match opts.signer with
  | none => (.ok none, opts)
  | some s =>
    match processSigner s with
    | (.error e, s2) => (.error e, { opts with signer := some s2 })
    | (.ok sg, s2) => (.ok (some sg), { opts with signer := some s2 })

/-- `Operation.setOptions` (src/operation.js:207), including its effect on
the caller's options record: the second component is the record as observed
after the call (the signer sub-object may have been mutated by
`processSigner`). -/
def setOptionsRun (opts : SetOptionsOpts) : Except String XdrOperation × SetOptionsOpts :=
  match checkOptionalAddress "inflationDest is invalid" opts.inflationDest with
  | .error e => (.error e, opts)
  | .ok inflationDest =>
    match checkUnsignedIntValue "clearFlags" opts.clearFlags with
    | .error e => (.error e, opts)
    | .ok clearFlags =>
      match checkUnsignedIntValue "setFlags" opts.setFlags with
      | .error e => (.error e, opts)
      | .ok setFlags =>
        match checkUnsignedIntValue "masterWeight" opts.masterWeight (some weightCheckFunction) with
        | .error e => (.error e, opts)
        | .ok masterWeight =>
          match checkUnsignedIntValue "lowThreshold" opts.lowThreshold (some weightCheckFunction) with
          | .error e => (.error e, opts)
          | .ok lowThreshold =>
            match checkUnsignedIntValue "medThreshold" opts.medThreshold (some weightCheckFunction) with
            | .error e => (.error e, opts)
            | .ok medThreshold =>
              match checkUnsignedIntValue "highThreshold" opts.highThreshold (some weightCheckFunction) with
              | .error e => (.error e, opts)
              | .ok highThreshold =>
                if opts.homeDomain ≠ .undef ∧ !isStringJS opts.homeDomain then
                  (.error "homeDomain argument must be of type String", opts)
                else
                  match processSignerOpt opts with
                  | (.error e, opts2) => (.error e, opts2)
                  | (.ok signer, opts2) =>
                    match setSourceAccount opts.source with
                    | .error e => (.error e, opts2)
                    | .ok src =>
                      (.ok { sourceAccount := src,
                             body := .setOption
                               { inflationDest := inflationDest, clearFlags := clearFlags,
                                 setFlags := setFlags, masterWeight := masterWeight,
                                 lowThreshold := lowThreshold, medThreshold := medThreshold,
                                 highThreshold := highThreshold, homeDomain := opts.homeDomain,
                                 signer := signer } }, opts2)

/-- The value `Operation.setOptions` returns (ignoring the in-place update
of the caller's record, which `setOptionsRun` exposes). -/
def setOptions (opts : SetOptionsOpts) : Except String XdrOperation :=
  (setOptionsRun opts).1

/-- Options of `Operation.accountMerge`. -/
structure AccountMergeOpts where
  destination : String
  source : Option String := none
deriving DecidableEq, Repr

/-- `Operation.accountMerge` (src/operation.js:302). -/
def accountMerge (opts : AccountMergeOpts) : Except String XdrOperation :=
  if !isValidEd25519PublicKey opts.destination then .error "destination is invalid"
  else
    match setSourceAccount opts.source with
    | .error e => .error e
    | .ok src =>
      .ok { sourceAccount := src, body := .accountMerge (decodeEd25519PublicKey opts.destination) }

/-- Options of `Operation.manageData`. -/
structure ManageDataOpts where
  name : JSVal
  value : JSVal := .undef
  source : Option String := none
deriving DecidableEq, Repr

/-- The value step of `Operation.manageData` (src/operation.js:331-339):
the value must be a string, a Buffer, or literally `null` (an `undefined`
value throws); a string value becomes its UTF-8 buffer. -/
def dataValueOf : JSVal → Except String (Option (List Nat))
  | .str v => .ok (some (jsUtf8 v))
  | .buf b => .ok (some b)
  | .null => .ok none
  | _ => .error "value must be a string, Buffer or null"

/-- `Operation.manageData` (src/operation.js:323): the name must be a
string of at most 64 characters (`.length`, i.e. UTF-16 units, modelled as
code points); a non-null value longer than 64 bytes throws. -/
def manageData (opts : ManageDataOpts) : Except String XdrOperation :=
  match opts.name with
  | .str n =>
    if n.length ≤ 64 then
      match dataValueOf opts.value with
      | .error e => .error e
      | .ok dv =>
        if (match dv with | some b => decide (b.length > 64) | none => false) then
          .error "value cannot be longer that 64 bytes"
        else
          match setSourceAccount opts.source with
          | .error e => .error e
          | .ok src => .ok { sourceAccount := src, body := .manageDatum n dv }
    else .error "name must be a string, up to 64 characters"
  | _ => .error "name must be a string, up to 64 characters"

/-- Options of `Operation.setFee`. -/
structure SetFeeOpts where
  baseFee : JSVal
  source : Option String := none
deriving DecidableEq, Repr

/-- `Operation.setFee` (src/operation.js:389): the baseFee is passed
through without validation. -/
def setFee (opts : SetFeeOpts) : Except String XdrOperation :=
  match setSourceAccount opts.source with
  | .error e => .error e
  | .ok src => .ok { sourceAccount := src, body := .setFee opts.baseFee }

/-- Options of `Operation.restrictAccount`. -/
structure RestrictAccountOpts where
  account : String
  clearFlags : JSVal := .undef
  setFlags : JSVal := .undef
  source : Option String := none
deriving DecidableEq, Repr

/-- `Operation.restrictAccount` (src/operation.js:418): the flags are
checked first; the account is then decoded by `Keypair.fromPublicKey`,
which throws on an invalid address. -/
def restrictAccount (opts : RestrictAccountOpts) : Except String XdrOperation :=
  match checkUnsignedIntValue "clearFlags" opts.clearFlags with
  | .error e => .error e
  | .ok clearFlags =>
    match checkUnsignedIntValue "setFlags" opts.setFlags with
    | .error e => .error e
    | .ok setFlags =>
      if !isValidEd25519PublicKey opts.account then .error "Invalid Stellar public key"
      else
        match setSourceAccount opts.source with
        | .error e => .error e
        | .ok src =>
          .ok { sourceAccount := src,
                body := .restrictAccount (decodeEd25519PublicKey opts.account) clearFlags setFlags }

/-! ## `Operation.fromXDRObject` (src/operation.js:449) -/

/-- The signer sub-object of a decoded operation. -/
structure DecodedSigner where
  ed25519PublicKey : Option String := none
  preAuthTx : Option (List Nat) := none
  sha256Hash : Option (List Nat) := none
  weight : Option ℚ := none
  signerType : JSVal := .undef
deriving DecidableEq, Repr

/-- The dynamic result object of `Operation.fromXDRObject`: one `type` tag
plus the per-kind fields (absent fields stay `none` / `undef`). -/
structure DecodedOp where
  type : String := ""
  source : Option String := none
  destination : Option String := none
  startingBalance : Option String := none
  accountType : Option ℚ := none
  amount : Option String := none
  asset : Option Unit := none
  inflationDest : Option String := none
  clearFlags : Option ℚ := none
  setFlags : Option ℚ := none
  masterWeight : Option ℚ := none
  lowThreshold : Option ℚ := none
  medThreshold : Option ℚ := none
  highThreshold : Option ℚ := none
  homeDomain : JSVal := .undef
  signer : Option DecodedSigner := none
  name : Option String := none
  value : Option (Option (List Nat)) := none
  baseFee : Option JSVal := none
  account : Option String := none
deriving DecidableEq, Repr

/-- Decode an `xdr.Signer` back to the human-facing signer object. -/
def decodeSigner (s : XdrSigner) : DecodedSigner :=
  match s.key with
  | .ed25519 k => { ed25519PublicKey := some (encodeEd25519PublicKey k),
                    weight := s.weight, signerType := s.signerType }
  | .preAuthTx k => { preAuthTx := some k, weight := s.weight, signerType := s.signerType }
  | .hashX k => { sha256Hash := some k, weight := s.weight, signerType := s.signerType }

/-- `Operation.fromXDRObject`: dispatch on the body tag and re-derive the
human-facing options object (addresses re-encoded through StrKey, amounts
re-rendered through the amount codec).  The `default: throw` branch of the
source is unreachable over this closed union. -/
def fromXDRObject (operation : XdrOperation) : DecodedOp :=
  let source := operation.sourceAccount.map encodeEd25519PublicKey
  match operation.body with
  | .createAccount d sb acct =>
    { type := "createAccount", source := source,
      destination := some (encodeEd25519PublicKey d),
      startingBalance := some (fromXDRAmount sb), accountType := some acct }
  | .emission d a =>
    { type := "emission", source := source,
      destination := some (encodeEd25519PublicKey d), amount := some (fromXDRAmount a) }
  | .settlement a =>
    { type := "settlement", source := source, amount := some (fromXDRAmount a) }
  | .payment d u a =>
    { type := "payment", source := source,
      destination := some (encodeEd25519PublicKey d), asset := some u,
      amount := some (fromXDRAmount a) }
  | .setOption o =>
    { type := "setOptions", source := source,
      inflationDest := o.inflationDest.map encodeEd25519PublicKey,
      clearFlags := o.clearFlags, setFlags := o.setFlags,
      masterWeight := o.masterWeight, lowThreshold := o.lowThreshold,
      medThreshold := o.medThreshold, highThreshold := o.highThreshold,
      homeDomain := o.homeDomain, signer := o.signer.map decodeSigner }
  | .accountMerge d =>
    { type := "accountMerge", source := source, destination := some (encodeEd25519PublicKey d) }
  | .manageDatum n v =>
    { type := "manageData", source := source, name := some n, value := some v }
  | .setFee b =>
    { type := "setFee", source := source, baseFee := some b }
  | .spendFee d a =>
    { type := "spendFee", source := source,
      destination := some (encodeEd25519PublicKey d), amount := some (fromXDRAmount a) }
  | .restrictAccount acc cf sf =>
    { type := "restrictAccount", source := source,
      account := some (encodeEd25519PublicKey acc), clearFlags := cf, setFlags := sf }

/-! ## `Account` (src/account.js) -/

/-- Rendering of a `BigNumber` value (`toString()`), minimal exact decimal
form (the sign of `-0` and the library's exponential-notation thresholds,
never reached by sequence numbers, are not modelled beyond the sign
prefix). -/
def bigValueToString : BigValue → String
  | .fin b => (if b.neg then "-" else "") ++ renderScaled b.num b.scale
  | .posInf => "Infinity"
  | .negInf => "-Infinity"
  | .nan => "NaN"

/-- Truncation of a rational toward zero (what `parseInt` does to the
integer part of a numeral). -/
def ratTrunc (q : ℚ) : Int :=
  if 0 ≤ q then (q.floor : Int) else -((-q).floor)

/-- JavaScript `parseInt` on the values `Account` receives: a string is
prefix-parsed for an optional sign and decimal digits, a number is
truncated toward zero, everything else is NaN (radix prefixes and
whitespace are not modelled; nothing in scope feeds them). -/
def parseIntJS : JSVal → JSNumber
  | .str s =>
    let (neg, cs) := parseSign s.toList
    let ds := cs.takeWhile Char.isDigit
    if ds.length = 0 then .nan
    else .fin ((if neg then -1 else 1) * (digitsToNat ds : ℚ))
  | .num (.fin q) => .fin (ratTrunc q : ℚ)
  | _ => .nan

/-- Rendering of a JavaScript number (`Number.prototype.toString` on the
integral and special values reachable as a `baseFee`). -/
def jsNumberToString : JSNumber → String
  | .fin q =>
    if q.den = 1 then (if q.num < 0 then "-" ++ Nat.repr q.num.natAbs else Nat.repr q.num.natAbs)
    else (if q < 0 then "-" else "") ++ renderScaled 0 0
  | .posInf => "Infinity"
  | .negInf => "-Infinity"
  | .nan => "NaN"

/-- The state of an `Account` object: the validated account id, the
`BigNumber` sequence and the `parseInt`-ed base fee. -/
structure AccountState where
  accountIdField : String
  sequence : BigValue
  baseFee : JSNumber
deriving DecidableEq, Repr

/-- The `Account` constructor (src/account.js:19): the account id must be
StrKey-valid, the sequence must be a string and parse as a `BigNumber`
(the unguarded `new BigNumber(sequence)` throws out of the constructor on
an unparseable string); the base fee goes through `parseInt`. -/
def accountMake (accountId : String) (sequence : JSVal) (baseFee : JSVal) :
    Except String AccountState :=
  if !isValidEd25519PublicKey accountId then .error "accountId is invalid"
  else
    match sequence with
    | .str s =>
      match parseBigNumber s with
      | some v => .ok { accountIdField := accountId, sequence := v, baseFee := parseIntJS baseFee }
      | none => .error "not a number"
    | _ => .error "sequence must be of type string"

/-- `Account.prototype.accountId`. -/
def accountId (a : AccountState) : String := a.accountIdField

/-- `Account.prototype.sequenceNumber` — `this.sequence.toString()`. -/
def sequenceNumber (a : AccountState) : String := bigValueToString a.sequence

/-- `Account.prototype.baseFeeValue` — `this.baseFee.toString()`. -/
def baseFeeValue (a : AccountState) : String := jsNumberToString a.baseFee

/-- `BigNumber.add(1)` on a stored value. -/
def bigAdd1 : BigValue → BigValue
  | .fin b =>
    if b.neg then
      if b.num ≥ 10 ^ b.scale then .fin { neg := true, num := b.num - 10 ^ b.scale, scale := b.scale }
      else .fin { neg := false, num := 10 ^ b.scale - b.num, scale := b.scale }
    else .fin { neg := false, num := b.num + 10 ^ b.scale, scale := b.scale }
  | .posInf => .posInf
  | .negInf => .negInf
  | .nan => .nan

/-- `Account.prototype.incrementSequenceNumber` —
`this.sequence = this.sequence.add(1)`. -/
def incrementSequenceNumber (a : AccountState) : AccountState :=
  { a with sequence := bigAdd1 a.sequence }

/-- Rational value of a finite `BigNum`. -/
def bigNumQ (b : BigNum) : ℚ :=
  (if b.neg then -1 else 1) * (b.num : ℚ) / 10 ^ b.scale

/-- Rational value of a stored sequence, `none` for the non-finite
values. -/
def seqValueQ (a : AccountState) : Option ℚ :=
  match a.sequence with
  | .fin b => some (bigNumQ b)
  | _ => none

/-! ## Definitions used by the claim statements -/

/-- What the decoded `source` field of a built operation is: the source
string as supplied, with a falsy (absent or empty) source normalizing to
absent. -/
def canonAddr : Option String → Option String
  | none => none
  | some s => if s = "" then none else some s

/-- The parsed numeric value of a flag/weight/threshold input, following
the spec's string-or-number contract: `undefined` stays absent, a string is
parsed like `parseFloat`, a number is itself. -/
def parsedUIntValue : JSVal → Option ℚ
  | .undef => none
  | .str s => match parseFloatJS s with | .fin q => some q | _ => none
  | .num (.fin q) => some q
  | _ => none

/-- How many of the three signer key-variant fields are set (truthy). -/
def countTruthySigner (s : SignerOpts) : Nat :=
  (if truthy s.ed25519PublicKey then 1 else 0) +
  (if truthy s.preAuthTx then 1 else 0) +
  (if truthy s.sha256Hash then 1 else 0)

/-- The signer object a successful `setOptions` decodes back to, written
from the supplied signer options: the one set key variant (a hex string
already decoded to its byte buffer), the parsed weight, the raw
signerType. -/
def specDecodedSigner (s : SignerOpts) : DecodedSigner :=
  { ed25519PublicKey :=
      if truthy s.ed25519PublicKey then
        match s.ed25519PublicKey with | .str e => some e | _ => none
      else none,
    preAuthTx :=
      if truthy s.preAuthTx then
        match s.preAuthTx with
        | .str h => some (hexDecodeStr h)
        | .buf b => some b
        | _ => none
      else none,
    sha256Hash :=
      if truthy s.sha256Hash then
        match s.sha256Hash with
        | .str h => some (hexDecodeStr h)
        | .buf b => some b
        | _ => none
      else none,
    weight := parsedUIntValue s.weight,
    signerType := s.signerType }

/-- The amounts claim C7 quantifies over: zero, negative, or not a decimal
string at all (non-strings, unparseable strings, and the non-finite
numerals). -/
def amountZeroNegativeOrNonDecimal : JSVal → Bool
  | .str s =>
    match parseBigNumber s with
    | some (.fin b) => b.num == 0 || b.neg
    | _ => true
  | _ => true

/-- Canonical rendering of a sequence string: what the stored `BigNumber`
prints back as. -/
def canonicalSequence (s : String) : String :=
  match parseBigNumber s with
  | some v => bigValueToString v
  | none => ""

/-- The buffer a `manageData` value decodes back to: a string becomes its
UTF-8 bytes, a buffer stays itself, `null` (deletion) stays absent. -/
def specDataValue : JSVal → Option (List Nat)
  | .str v => some (jsUtf8 v)
  | .buf b => some b
  | _ => none

/-- The destination address used by the repository's round-trip tests. -/
def destExample : String := "GCEZWKCA5VLDNRLN3RPRJMRZOX3Z6G5CHCGSNFHEYVXM3XOJMDS674JZ"

/-- A second valid address from the repository's tests. -/
def destExample2 : String := "GDGU5OAPHNPU5UCLE5RDJHG7PXZFQYWKCFOEXSXNMR6KRQRI5T6XXCD7"

/-- The operation record built by the spec's round-trip example
`payment({destination: destExample, amount: "1000"})`. -/
def paymentExampleOp : XdrOperation :=
  { sourceAccount := none,
    body := .payment (decodeEd25519PublicKey destExample) () 10000000000 }

/-- The operation record built by `settlement({amount: "0.10"})` — the
round-trip counterexample. -/
def settlementTenthOp : XdrOperation :=
  { sourceAccount := none, body := .settlement 1000000 }

/-- A 64-character hex string (the sha256 of some preimage) used to
exhibit the in-place mutation of a hex `preAuthTx`. -/
def preAuthHexExample : String :=
  "00112233445566778899aabbccddeeff00112233445566778899aabbccddeeff"

/-- `setOptions` options with both an ed25519 signer key and a hex
`preAuthTx`: the call fails (two variants), but only after overwriting the
hex string with its decoded buffer. -/
def mutationExampleOpts : SetOptionsOpts :=
  { signer := some { ed25519PublicKey := .str destExample2,
                     preAuthTx := .str preAuthHexExample,
                     weight := .num (.fin 1),
                     signerType := .num (.fin 0) } }

/-- A signer with a valid key and signerType but no weight at all. -/
def noWeightSignerOpts : SetOptionsOpts :=
  { signer := some { ed25519PublicKey := .str destExample2,
                     signerType := .num (.fin 0) } }

/-- A 33-character name whose characters take three UTF-8 bytes each: 64
characters or fewer, but 99 bytes. -/
def wideNameExample : String := String.mk (List.replicate 33 '€')

/-- Success test on a builder result (`true` iff no throw). -/
def exceptIsOk {α : Type} : Except String α → Bool
  | .ok _ => true
  | .error _ => false

/-- The `weight` field of the signer sub-object of an options record. -/
def signerWeightOf (o : SetOptionsOpts) : Option JSVal :=
  o.signer.map SignerOpts.weight

/-- The `preAuthTx` field of the signer sub-object of an options record. -/
def signerPreAuthOf (o : SetOptionsOpts) : Option JSVal :=
  o.signer.map SignerOpts.preAuthTx

/-- A concrete account: valid id, sequence 100, base fee 5. -/
def accountExample : AccountState :=
  { accountIdField := destExample, sequence := .fin { neg := false, num := 100, scale := 0 },
    baseFee := .fin 5 }

/-- The operation built by `setOptions({setFlags: "4"})`. -/
def setFlagsExampleOp : XdrOperation :=
  { sourceAccount := none, body := .setOption { setFlags := some 4 } }

/-- The account state built from `(destExample, "100", undefined)`. -/
def accountParsedExample : AccountState :=
  { accountIdField := destExample, sequence := .fin { neg := false, num := 100, scale := 0 },
    baseFee := .nan }

/-! ## Theorems

First the supporting lemmas (bit-level codec round-trips, StrKey and
amount round-trips, builder inversions), then one theorem per claim. -/

set_option maxRecDepth 40000

/-- A byte's bits determine the byte: regrouping eight bits into a byte and
expanding again is the identity. -/
theorem byteToBits_bitsToNat :
    ∀ (a b c d e f g h : Bool),
      byteToBits (bitsToNat [a, b, c, d, e, f, g, h]) = [a, b, c, d, e, f, g, h] := by
  decide

/-- A base-32 digit survives the bit expansion. -/
theorem bitsToNat_valToBits : ∀ v, v < 32 → bitsToNat (valToBits v) = v := by
  decide

/-- Expanding the bytes regrouped from a bit stream of byte granularity
restores the stream. -/
theorem bytesToBits_bitsToBytes :
    ∀ (n : Nat) (bs : List Bool), bs.length = 8 * n → bytesToBits (bitsToBytes bs) = bs := by
  intro n
  induction n with
  | zero =>
    intro bs h
    have : bs = [] := List.eq_nil_of_length_eq_zero (by omega)
    subst this
    rfl
  | succ n ih =>
    intro bs h
    match bs with
    | [] => simp at h
    | [a] => simp at h; omega
    | [a, b] => simp at h; omega
    | [a, b, c] => simp at h; omega
    | [a, b, c, d] => simp at h; omega
    | [a, b, c, d, e] => simp at h; omega
    | [a, b, c, d, e, f] => simp at h; omega
    | [a, b, c, d, e, f, g] => simp at h; omega
    | a :: b :: c :: d :: e :: f :: g :: k :: rest =>
      have hr : rest.length = 8 * n := by simp at h; omega
      show bytesToBits (bitsToNat [a, b, c, d, e, f, g, k] :: bitsToBytes rest) = _
      have hbits := byteToBits_bitsToNat a b c d e f g k
      simp only [bytesToBits, List.map_cons, List.flatten_cons]
      rw [hbits, ← bytesToBits, ih rest hr]
      rfl

/-- The length of the bit stream of a digit string. -/
theorem valsToBits_length (vs : List Nat) : (valsToBits vs).length = 5 * vs.length := by
  induction vs with
  | nil => rfl
  | cons v t ih =>
    simp only [valsToBits, List.map_cons, List.flatten_cons, List.length_append,
      List.length_cons] at *
    rw [ih]
    have : (valToBits v).length = 5 := rfl
    rw [this]
    ring

/-- Regrouping the bit stream of a digit string restores the digits. -/
theorem bitsToVals_valsToBits (vs : List Nat) (h : ∀ v ∈ vs, v < 32) :
    bitsToVals (valsToBits vs) = vs := by
  induction vs with
  | nil => rfl
  | cons v t ih =>
    have hv : v < 32 := h v (List.mem_cons_self v t)
    have ht : ∀ x ∈ t, x < 32 := fun x hx => h x (List.mem_cons_of_mem v hx)
    simp only [valsToBits, List.map_cons, List.flatten_cons]
    show bitsToVals (valToBits v ++ _) = _
    have h5 : valToBits v = [decide (v / 16 % 2 = 1), decide (v / 8 % 2 = 1),
        decide (v / 4 % 2 = 1), decide (v / 2 % 2 = 1), decide (v % 2 = 1)] := rfl
    rw [h5]
    show bitsToNat (valToBits v) :: bitsToVals (valsToBits t) = v :: t
    rw [bitsToNat_valToBits v hv, ih ht]

/-- The base-32 alphabet has 32 characters. -/
theorem base32Alphabet_length : base32Alphabet.length = 32 := by decide

/-- A character recognized as a base-32 digit renders back to itself. -/
theorem valToChar_charToVal (c : Char) (v : Nat) (h : charToVal c = some v) :
    valToChar v = c := by
  unfold charToVal at h
  split at h
  next hlt =>
    injection h with hv
    subst hv
    unfold valToChar
    have hlt2 : base32Alphabet.indexOf c < base32Alphabet.length := by
      rw [base32Alphabet_length]; exact hlt
    have hget := List.indexOf_get (a := c) (l := base32Alphabet) hlt2
    rw [List.getD_eq_getElem?_getD, List.getElem?_eq_getElem hlt2]
    simp only [Option.getD_some, ← List.get_eq_getElem]
    exact hget
  next => exact absurd h (by simp)

/-- A recognized digit is below 32. -/
theorem charToVal_lt (c : Char) (v : Nat) (h : charToVal c = some v) : v < 32 := by
  unfold charToVal at h
  split at h
  next hlt => injection h with hv; omega
  next => exact absurd h (by simp)

/-- All digits produced by `mapCharsToVals` are below 32. -/
theorem mapCharsToVals_lt :
    ∀ (cs : List Char) (vs : List Nat), mapCharsToVals cs = some vs → ∀ v ∈ vs, v < 32 := by
  intro cs
  induction cs with
  | nil => intro vs h v hv; simp [mapCharsToVals] at h; subst h; simp at hv
  | cons c t ih =>
    intro vs h v hv
    unfold mapCharsToVals at h
    cases hc : charToVal c with
    | none => rw [hc] at h; simp at h
    | some x =>
      cases hm : mapCharsToVals t with
      | none => rw [hc, hm] at h; simp at h
      | some xs =>
        rw [hc, hm] at h
        injection h with h
        subst h
        rcases List.mem_cons.mp hv with h1 | h2
        · subst h1; exact charToVal_lt c v hc
        · exact ih xs hm v h2

/-- The digits produced by `mapCharsToVals` render back to the original
characters. -/
theorem mapCharsToVals_map :
    ∀ (cs : List Char) (vs : List Nat), mapCharsToVals cs = some vs →
      vs.map valToChar = cs := by
  intro cs
  induction cs with
  | nil => intro vs h; simp [mapCharsToVals] at h; subst h; rfl
  | cons c t ih =>
    intro vs h
    unfold mapCharsToVals at h
    cases hc : charToVal c with
    | none => rw [hc] at h; simp at h
    | some x =>
      cases hm : mapCharsToVals t with
      | none => rw [hc, hm] at h; simp at h
      | some xs =>
        rw [hc, hm] at h
        injection h with h
        subst h
        simp only [List.map_cons]
        rw [valToChar_charToVal c x hc, ih xs hm]

/-- Re-encoding the bytes of a successfully decoded base-32 string gives
back the string. -/
theorem base32Encode_base32Decode (cs : List Char) (bytes : List Nat)
    (h : base32Decode cs = some bytes) : base32Encode bytes = cs := by
  unfold base32Decode at h
  split at h
  next => exact absurd h (by simp)
  next vals hm =>
    split at h
    next hmod =>
      injection h with h
      subst h
      simp only [base32Encode]
      have hlen : (valsToBits vals).length = 5 * vals.length := valsToBits_length vals
      have h8 : (valsToBits vals).length = 8 * ((5 * vals.length) / 8) := by omega
      rw [bytesToBits_bitsToBytes _ _ h8]
      have hmod5 : (valsToBits vals).length % 5 = 0 := by omega
      rw [hmod5]
      simp only [Nat.sub_zero, Nat.mod_self, List.replicate_zero, List.append_nil]
      rw [bitsToVals_valsToBits vals (mapCharsToVals_lt cs vals hm)]
      exact mapCharsToVals_map cs vals hm
    next => exact absurd h (by simp)

/-- StrKey round-trip: re-encoding the payload of a successfully decoded
string restores the string exactly. -/
theorem encodeCheck_decodeCheck (version : Nat) (s : String) (payload : List Nat)
    (h : decodeCheck version s = some payload) : encodeCheck version payload = s := by
  unfold decodeCheck at h
  split at h
  next => exact absurd h (by simp)
  next bytes hb =>
    split at h
    next => exact absurd h (by simp)
    next hlen =>
      split at h
      next v pl hd =>
        split at h
        next hvc =>
          obtain ⟨rfl, hck⟩ := hvc
          injection h with hpl
          subst hpl
          rw [hd] at hck
          have hsplit : bytes = (v :: pl) ++ checksumBytes (crc16 (v :: pl)) := by
            conv_lhs => rw [← List.take_append_drop (bytes.length - 2) bytes]
            rw [hd, hck]
          simp only [encodeCheck]
          rw [← hsplit]
          have henc : base32Encode bytes = s.toList := base32Encode_base32Decode s.toList bytes hb
          apply String.ext
          exact henc
        next => exact absurd h (by simp)
      next hd => exact absurd h (by simp)

/-- Re-encoding a valid account address after decoding restores it. -/
theorem encode_decode_valid (s : String) (h : isValidEd25519PublicKey s = true) :
    encodeEd25519PublicKey (decodeEd25519PublicKey s) = s := by
  unfold isValidEd25519PublicKey at h
  cases hd : decodeCheck accountIdVersionByte s with
  | none => rw [hd] at h; simp at h
  | some payload =>
    unfold encodeEd25519PublicKey decodeEd25519PublicKey
    rw [hd]
    exact encodeCheck_decodeCheck accountIdVersionByte s payload hd

/-- The reduced scale never exceeds the scale. -/
theorem dpAux_le : ∀ (s n : Nat), dpAux s n ≤ s := by
  intro s
  induction s with
  | zero => intro n; simp [dpAux]
  | succ s ih =>
    intro n
    unfold dpAux
    split
    · exact le_trans (ih (n / 10)) (Nat.le_succ s)
    · exact le_refl _

/-- The stripped trailing digits of the mantissa really are zeros. -/
theorem dpAux_dvd : ∀ (s n : Nat), 10 ^ (s - dpAux s n) ∣ n := by
  intro s
  induction s with
  | zero => intro n; simp [dpAux]
  | succ s ih =>
    intro n
    unfold dpAux
    split
    next h0 =>
      have hle : dpAux s (n / 10) ≤ s := dpAux_le s (n / 10)
      have hstep : s + 1 - dpAux s (n / 10) = (s - dpAux s (n / 10)) + 1 := by omega
      rw [hstep]
      obtain ⟨c, hc⟩ := ih (n / 10)
      refine ⟨c, ?_⟩
      calc n = 10 * (n / 10) := by omega
        _ = 10 * (10 ^ (s - dpAux s (n / 10)) * c) := by conv_lhs => rw [hc]
        _ = 10 ^ (s - dpAux s (n / 10) + 1) * c := by ring
    next => simp

/-- Scaling mantissa and scale by ten together does not change the reduced
form. -/
theorem dpAux_mul10 (m s : Nat) : dpAux (s + 1) (m * 10) = dpAux s m := by
  have h0 : m * 10 % 10 = 0 := by omega
  rw [show dpAux (s + 1) (m * 10) =
        (if m * 10 % 10 = 0 then dpAux s (m * 10 / 10) else s + 1) from rfl]
  rw [if_pos h0, Nat.mul_div_cancel m (by norm_num : (0 : Nat) < 10)]

/-- Rendering is invariant under a joint ×10 of mantissa and scale. -/
theorem renderScaled_mul10 (m s : Nat) : renderScaled (m * 10) (s + 1) = renderScaled m s := by
  simp only [renderScaled]
  rw [dpAux_mul10]
  have hle : dpAux s m ≤ s := dpAux_le s m
  have hs : s + 1 - dpAux s m = (s - dpAux s m) + 1 := by omega
  rw [hs, pow_succ]
  have hdiv : m * 10 / (10 ^ (s - dpAux s m) * 10) = m / 10 ^ (s - dpAux s m) := by
    rw [Nat.mul_div_mul_right _ _ (by norm_num)]
  rw [hdiv]

/-- Rendering is invariant under a joint ×10^k of mantissa and scale. -/
theorem renderScaled_mul_pow (m s : Nat) : ∀ (k : Nat),
    renderScaled (m * 10 ^ k) (s + k) = renderScaled m s := by
  intro k
  induction k with
  | zero => simp
  | succ k ih =>
    have h1 : m * 10 ^ (k + 1) = m * 10 ^ k * 10 := by ring
    have h2 : s + (k + 1) = (s + k) + 1 := by omega
    rw [h1, h2, renderScaled_mul10, ih]

/-- What a successful `isValidAmount` check on a string guarantees. -/
theorem isValidAmount_str (s : String) (az : Bool) (h : isValidAmount (.str s) az = true) :
    ∃ b : BigNum, parseBigNumber s = some (.fin b) ∧ b.neg = false ∧
      dpAux b.scale b.num ≤ 7 ∧ b.num * ONE ≤ MAX_INT64 * 10 ^ b.scale ∧
      (az = true ∨ b.num ≠ 0) := by
  unfold isValidAmount at h
  dsimp only at h
  cases hp : parseBigNumber s with
  | none => rw [hp] at h; simp at h
  | some bv =>
    rw [hp] at h
    dsimp only at h
    cases bv with
    | posInf => simp [bnIsZero, bnIsNegative, bnTimesOneGtMaxInt64] at h
    | negInf => simp [bnIsZero, bnIsNegative] at h
    | nan =>
      simp [bnIsZero, bnIsNegative, bnTimesOneGtMaxInt64, bnDecimalPlaces, bnIsFinite] at h
    | fin b =>
      refine ⟨b, rfl, ?_⟩
      by_cases hz : (!az && bnIsZero (.fin b)) = true
      · rw [if_pos hz] at h; simp at h
      · rw [if_neg hz] at h
        by_cases hn : bnIsNegative (.fin b) = true
        · rw [if_pos hn] at h; simp at h
        · rw [if_neg hn] at h
          by_cases hg : bnTimesOneGtMaxInt64 (.fin b) = true
          · rw [if_pos hg] at h; simp at h
          · rw [if_neg hg] at h
            by_cases hd : bnDecimalPlaces (.fin b) > 7
            · rw [if_pos hd] at h; simp at h
            · simp only [bnIsNegative] at hn
              simp only [bnIsZero] at hz
              simp only [bnTimesOneGtMaxInt64] at hg
              simp only [bnDecimalPlaces] at hd
              have hneg : b.neg = false := by
                cases hb : b.neg
                · rfl
                · rw [hb] at hn; simp at hn
              refine ⟨hneg, by omega, ?_, ?_⟩
              · rw [hneg] at hg
                simp at hg
                omega
              · cases haz : az
                · right
                  rw [haz] at hz
                  simpa using hz
                · left; rfl

/-- A value accepted by `isValidAmount` is a string. -/
theorem isValidAmount_isStr (v : JSVal) (az : Bool) (h : isValidAmount v az = true) :
    ∃ s, v = .str s := by
  cases v
  case str s => exact ⟨s, rfl⟩
  all_goals simp [isValidAmount] at h

/-- On a valid amount the encode/decode pair of the amount codec lands on
the canonical rendering of the amount's value. -/
theorem fromXDRAmount_toXDRAmount (s : String) (az : Bool)
    (h : isValidAmount (.str s) az = true) :
    fromXDRAmount (toXDRAmount s) = canonicalAmount s := by
  obtain ⟨b, hp, hneg, hdp, hle, _⟩ := isValidAmount_str s az h
  unfold toXDRAmount canonicalAmount
  rw [hp]
  dsimp only
  rw [hneg]
  simp only [Bool.false_eq_true, if_false, one_mul]
  have habs : fromXDRAmount ((b.num * ONE / 10 ^ b.scale : Nat) : Int) =
      renderScaled (b.num * ONE / 10 ^ b.scale) 7 := by
    unfold fromXDRAmount
    rw [if_neg (not_lt.mpr (Int.natCast_nonneg _))]
    rw [Int.natAbs_ofNat]
  rw [habs]
  show renderScaled (b.num * ONE / 10 ^ b.scale) 7 = "" ++ renderScaled b.num b.scale
  rw [String.empty_append]
  by_cases hs : b.scale ≤ 7
  · have hone : (ONE : Nat) = 10 ^ 7 := by norm_num [ONE]
    have hdiv : b.num * ONE / 10 ^ b.scale = b.num * 10 ^ (7 - b.scale) := by
      rw [hone]
      have h7 : (10 : Nat) ^ 7 = 10 ^ (7 - b.scale) * 10 ^ b.scale := by
        rw [← pow_add]
        congr 1
        omega
      rw [h7, ← Nat.mul_assoc]
      exact Nat.mul_div_cancel _ (by positivity)
    rw [hdiv]
    have := renderScaled_mul_pow b.num b.scale (7 - b.scale)
    rw [show b.scale + (7 - b.scale) = 7 from by omega] at this
    exact this
  · push_neg at hs
    have hdvd : 10 ^ (b.scale - 7) ∣ b.num := by
      refine dvd_trans (pow_dvd_pow 10 ?_) (dpAux_dvd b.scale b.num)
      omega
    obtain ⟨t, ht⟩ := hdvd
    have hone : (ONE : Nat) = 10 ^ 7 := by norm_num [ONE]
    have hdiv : b.num * ONE / 10 ^ b.scale = t := by
      rw [ht, hone]
      have : 10 ^ (b.scale - 7) * t * 10 ^ 7 = t * 10 ^ b.scale := by
        rw [mul_comm (10 ^ (b.scale - 7)) t, mul_assoc, ← pow_add]
        congr 2
        omega
      rw [this]
      exact Nat.mul_div_cancel _ (by positivity)
    rw [hdiv]
    have := renderScaled_mul_pow t 7 (b.scale - 7)
    rw [show (7 : Nat) + (b.scale - 7) = b.scale from by omega] at this
    rw [← this, ht, mul_comm (10 ^ (b.scale - 7)) t]

/-- What a successful optional-address check guarantees: the decoded
address re-encodes to the canonicalized input. -/
theorem checkOptionalAddress_ok (msg : String) (src : Option String) (o : Option (List Nat))
    (h : checkOptionalAddress msg src = .ok o) :
    o.map encodeEd25519PublicKey = canonAddr src := by
  unfold checkOptionalAddress at h
  cases src with
  | none => injection h with h; subst h; rfl
  | some s =>
    dsimp only at h
    by_cases he : s = ""
    · rw [if_pos he] at h
      injection h with h
      subst h
      simp [canonAddr, he]
    · rw [if_neg he] at h
      by_cases hv : isValidEd25519PublicKey s = true
      · rw [if_pos hv] at h
        injection h with h
        subst h
        simp [canonAddr, he]
        exact encode_decode_valid s hv
      · rw [if_neg hv] at h
        exact absurd h (by simp)

/-- Specialization to `setSourceAccount`. -/
theorem setSourceAccount_ok (src : Option String) (o : Option (List Nat))
    (h : setSourceAccount src = .ok o) :
    o.map encodeEd25519PublicKey = canonAddr src :=
  checkOptionalAddress_ok _ src o h

/-- The check sequence of `isValidAmount` computes exactly the spec's
characterization. -/
theorem isValidAmount_eq_spec (v : JSVal) (az : Bool) :
    isValidAmount v az = specValidAmount v az := by
  cases v with
  | str s =>
    unfold isValidAmount specValidAmount
    dsimp only
    cases hp : parseBigNumber s with
    | none => rfl
    | some bv =>
      cases bv with
      | fin b =>
        dsimp only
        by_cases haz : az = true <;> by_cases hz : b.num = 0 <;> cases hb : b.neg <;>
          by_cases hg : b.num * ONE > MAX_INT64 * 10 ^ b.scale <;>
          by_cases hd : dpAux b.scale b.num > 7 <;>
          simp [bnIsZero, bnIsNegative, bnTimesOneGtMaxInt64, bnDecimalPlaces, bnIsFinite,
            bnIsNaN, haz, hz, hb, hg, hd, ← decide_not, decide_eq_decide] <;> omega
      | posInf => simp [bnIsZero, bnIsNegative, bnTimesOneGtMaxInt64]
      | negInf => simp [bnIsZero, bnIsNegative]
      | nan => simp [bnIsZero, bnIsNegative, bnTimesOneGtMaxInt64, bnDecimalPlaces, bnIsFinite]
  | num n => rfl
  | buf b => rfl
  | null => rfl
  | undef => rfl
  | obj => rfl

/-- What a successful unsigned-int check guarantees: the result is the
parsed value of the input, and unless the input was absent the value is a
non-negative integer passing the extra predicate. -/
theorem checkUnsignedIntValue_ok (name : String) (v : JSVal) (f : Option (ℚ → Bool))
    (w : Option ℚ) (h : checkUnsignedIntValue name v f = .ok w) :
    w = parsedUIntValue v ∧
      (v = .undef ∨ ∃ q, w = some q ∧ q.den = 1 ∧ 0 ≤ q ∧ (∀ g, f = some g → g q = true)) := by
  unfold checkUnsignedIntValue at h
  cases v with
  | undef =>
    dsimp only at h
    injection h with h
    subst h
    exact ⟨rfl, Or.inl rfl⟩
  | str s =>
    dsimp only at h
    cases hq : parseFloatJS s with
    | fin q =>
      rw [hq] at h
      dsimp only at h
      by_cases hden : q.den ≠ 1
      · rw [if_pos hden] at h; exact absurd h (by simp)
      · rw [if_neg hden] at h
        by_cases hlt : q < 0
        · rw [if_pos hlt] at h; exact absurd h (by simp)
        · rw [if_neg hlt] at h
          push_neg at hden hlt
          cases f with
          | none =>
            dsimp only at h
            injection h with h
            subst h
            exact ⟨by simp [parsedUIntValue, hq], Or.inr ⟨q, rfl, hden, hlt, by simp⟩⟩
          | some g =>
            dsimp only at h
            by_cases hg : g q = true
            · rw [if_pos hg] at h
              injection h with h
              subst h
              refine ⟨by simp [parsedUIntValue, hq], Or.inr ⟨q, rfl, hden, hlt, ?_⟩⟩
              intro g2 hg2
              injection hg2 with hg2
              subst hg2
              exact hg
            · rw [if_neg hg] at h; exact absurd h (by simp)
    | posInf => rw [hq] at h; exact absurd h (by simp)
    | negInf => rw [hq] at h; exact absurd h (by simp)
    | nan => rw [hq] at h; exact absurd h (by simp)
  | num n =>
    dsimp only at h
    cases n with
    | fin q =>
      dsimp only at h
      by_cases hden : q.den ≠ 1
      · rw [if_pos hden] at h; exact absurd h (by simp)
      · rw [if_neg hden] at h
        by_cases hlt : q < 0
        · rw [if_pos hlt] at h; exact absurd h (by simp)
        · rw [if_neg hlt] at h
          push_neg at hden hlt
          cases f with
          | none =>
            dsimp only at h
            injection h with h
            subst h
            exact ⟨rfl, Or.inr ⟨q, rfl, hden, hlt, by simp⟩⟩
          | some g =>
            dsimp only at h
            by_cases hg : g q = true
            · rw [if_pos hg] at h
              injection h with h
              subst h
              refine ⟨rfl, Or.inr ⟨q, rfl, hden, hlt, ?_⟩⟩
              intro g2 hg2
              injection hg2 with hg2
              subst hg2
              exact hg
            · rw [if_neg hg] at h; exact absurd h (by simp)
    | posInf => exact absurd h (by simp)
    | negInf => exact absurd h (by simp)
    | nan => exact absurd h (by simp)
  | buf b => exact absurd h (by simp)
  | null => exact absurd h (by simp)
  | obj => exact absurd h (by simp)

/-- A recognized account type is a finite number. -/
theorem isValidAccountType_num (v : JSVal) (h : isValidAccountType v = true) :
    ∃ q : ℚ, v = .num (.fin q) := by
  cases v with
  | num n =>
    cases n with
    | fin q => exact ⟨q, rfl⟩
    | posInf => simp [isValidAccountType] at h
    | negInf => simp [isValidAccountType] at h
    | nan => simp [isValidAccountType] at h
  | str s => simp [isValidAccountType] at h
  | buf b => simp [isValidAccountType] at h
  | null => simp [isValidAccountType] at h
  | undef => simp [isValidAccountType] at h
  | obj => simp [isValidAccountType] at h

/-- Decoding a built `payment` yields the original options up to amount
canonicalization. -/
theorem payment_fromXDRObject (opts : PaymentOpts) (op : XdrOperation)
    (h : payment opts = .ok op) :
    ∃ s, opts.amount = .str s ∧
      fromXDRObject op =
        { type := "payment", source := canonAddr opts.source,
          destination := some opts.destination, asset := some (),
          amount := some (canonicalAmount s) } := by
  unfold payment at h
  split at h
  next => exact absurd h (by simp)
  next hdest =>
    split at h
    next => exact absurd h (by simp)
    next hamt =>
      split at h
      next => exact absurd h (by simp)
      next src hsrc =>
        injection h with hop
        subst hop
        rw [Bool.not_eq_true', Bool.not_eq_false] at hdest hamt
        obtain ⟨s, hs⟩ := isValidAmount_isStr _ _ hamt
        refine ⟨s, hs, ?_⟩
        unfold fromXDRObject
        dsimp only
        rw [setSourceAccount_ok _ _ hsrc, encode_decode_valid _ hdest]
        rw [hs] at hamt ⊢
        dsimp only [toXDRAmountJS]
        rw [fromXDRAmount_toXDRAmount s false hamt]

/-- Decoding a built `emission` likewise. -/
theorem emission_fromXDRObject (opts : PaymentOpts) (op : XdrOperation)
    (h : emission opts = .ok op) :
    ∃ s, opts.amount = .str s ∧
      fromXDRObject op =
        { type := "emission", source := canonAddr opts.source,
          destination := some opts.destination,
          amount := some (canonicalAmount s) } := by
  unfold emission at h
  split at h
  next => exact absurd h (by simp)
  next hdest =>
    split at h
    next => exact absurd h (by simp)
    next hamt =>
      split at h
      next => exact absurd h (by simp)
      next src hsrc =>
        injection h with hop
        subst hop
        rw [Bool.not_eq_true', Bool.not_eq_false] at hdest hamt
        obtain ⟨s, hs⟩ := isValidAmount_isStr _ _ hamt
        refine ⟨s, hs, ?_⟩
        unfold fromXDRObject
        dsimp only
        rw [setSourceAccount_ok _ _ hsrc, encode_decode_valid _ hdest]
        rw [hs] at hamt ⊢
        dsimp only [toXDRAmountJS]
        rw [fromXDRAmount_toXDRAmount s false hamt]

/-- Decoding a built `spendFee` likewise. -/
theorem spendFee_fromXDRObject (opts : PaymentOpts) (op : XdrOperation)
    (h : spendFee opts = .ok op) :
    ∃ s, opts.amount = .str s ∧
      fromXDRObject op =
        { type := "spendFee", source := canonAddr opts.source,
          destination := some opts.destination,
          amount := some (canonicalAmount s) } := by
  unfold spendFee at h
  split at h
  next => exact absurd h (by simp)
  next hdest =>
    split at h
    next => exact absurd h (by simp)
    next hamt =>
      split at h
      next => exact absurd h (by simp)
      next src hsrc =>
        injection h with hop
        subst hop
        rw [Bool.not_eq_true', Bool.not_eq_false] at hdest hamt
        obtain ⟨s, hs⟩ := isValidAmount_isStr _ _ hamt
        refine ⟨s, hs, ?_⟩
        unfold fromXDRObject
        dsimp only
        rw [setSourceAccount_ok _ _ hsrc, encode_decode_valid _ hdest]
        rw [hs] at hamt ⊢
        dsimp only [toXDRAmountJS]
        rw [fromXDRAmount_toXDRAmount s false hamt]

/-- Decoding a built `settlement` likewise (no destination). -/
theorem settlement_fromXDRObject (opts : SettlementOpts) (op : XdrOperation)
    (h : settlement opts = .ok op) :
    ∃ s, opts.amount = .str s ∧
      fromXDRObject op =
        { type := "settlement", source := canonAddr opts.source,
          amount := some (canonicalAmount s) } := by
  unfold settlement at h
  split at h
  next => exact absurd h (by simp)
  next hamt =>
    split at h
    next => exact absurd h (by simp)
    next src hsrc =>
      injection h with hop
      subst hop
      rw [Bool.not_eq_true', Bool.not_eq_false] at hamt
      obtain ⟨s, hs⟩ := isValidAmount_isStr _ _ hamt
      refine ⟨s, hs, ?_⟩
      unfold fromXDRObject
      dsimp only
      rw [setSourceAccount_ok _ _ hsrc]
      rw [hs] at hamt ⊢
      dsimp only [toXDRAmountJS]
      rw [fromXDRAmount_toXDRAmount s false hamt]

/-- Decoding a built `createAccount`: startingBalance canonicalizes, the
account type tag round-trips as its numeric value. -/
theorem createAccount_fromXDRObject (opts : CreateAccountOpts) (op : XdrOperation)
    (h : createAccount opts = .ok op) :
    ∃ (s : String) (q : ℚ), opts.startingBalance = .str s ∧
      opts.accountType = .num (.fin q) ∧
      fromXDRObject op =
        { type := "createAccount", source := canonAddr opts.source,
          destination := some opts.destination,
          startingBalance := some (canonicalAmount s), accountType := some q } := by
  unfold createAccount at h
  split at h
  next => exact absurd h (by simp)
  next hdest =>
    split at h
    next => exact absurd h (by simp)
    next hamt =>
      split at h
      next => exact absurd h (by simp)
      next hat =>
        split at h
        next => exact absurd h (by simp)
        next src hsrc =>
          injection h with hop
          subst hop
          rw [Bool.not_eq_true', Bool.not_eq_false] at hdest hamt
          simp only [Bool.or_eq_true, decide_eq_true_eq, Bool.not_eq_true',
            not_or, Bool.not_eq_false] at hat
          obtain ⟨hat1, hat2⟩ := hat
          obtain ⟨s, hs⟩ := isValidAmount_isStr _ _ hamt
          obtain ⟨q, hq⟩ := isValidAccountType_num _ hat2
          refine ⟨s, q, hs, hq, ?_⟩
          unfold fromXDRObject
          dsimp only
          rw [setSourceAccount_ok _ _ hsrc, encode_decode_valid _ hdest]
          rw [hs] at hamt ⊢
          rw [hq]
          dsimp only [toXDRAmountJS, jsNumValue]
          rw [fromXDRAmount_toXDRAmount s true hamt]

/-- Decoding a built `accountMerge`. -/
theorem accountMerge_fromXDRObject (opts : AccountMergeOpts) (op : XdrOperation)
    (h : accountMerge opts = .ok op) :
    fromXDRObject op =
      { type := "accountMerge", source := canonAddr opts.source,
        destination := some opts.destination } := by
  unfold accountMerge at h
  split at h
  next => exact absurd h (by simp)
  next hdest =>
    split at h
    next => exact absurd h (by simp)
    next src hsrc =>
      injection h with hop
      subst hop
      rw [Bool.not_eq_true', Bool.not_eq_false] at hdest
      unfold fromXDRObject
      dsimp only
      rw [setSourceAccount_ok _ _ hsrc, encode_decode_valid _ hdest]

/-- Decoding a built `manageData`: the name round-trips, the value decodes
to its byte-buffer form. -/
theorem manageData_fromXDRObject (opts : ManageDataOpts) (op : XdrOperation)
    (h : manageData opts = .ok op) :
    ∃ n, opts.name = .str n ∧
      fromXDRObject op =
        { type := "manageData", source := canonAddr opts.source,
          name := some n, value := some (specDataValue opts.value) } := by
  unfold manageData at h
  split at h
  next n hn =>
    split at h
    next hlen =>
      split at h
      next => exact absurd h (by simp)
      next dv hdv =>
        split at h
        next => exact absurd h (by simp)
        next hsize =>
          split at h
          next => exact absurd h (by simp)
          next src hsrc =>
            injection h with hop
            subst hop
            refine ⟨n, hn, ?_⟩
            unfold fromXDRObject
            dsimp only
            rw [setSourceAccount_ok _ _ hsrc]
            have hval : dv = specDataValue opts.value := by
              cases hv : opts.value <;> rw [hv] at hdv <;>
                simp [dataValueOf, specDataValue] at hdv ⊢ <;> simp [hdv]
            rw [hval]
    next => exact absurd h (by simp)
  next => exact absurd h (by simp)

/-- Decoding a built `setFee`: the baseFee passes through untouched. -/
theorem setFee_fromXDRObject (opts : SetFeeOpts) (op : XdrOperation)
    (h : setFee opts = .ok op) :
    fromXDRObject op =
      { type := "setFee", source := canonAddr opts.source,
        baseFee := some opts.baseFee } := by
  unfold setFee at h
  split at h
  next => exact absurd h (by simp)
  next src hsrc =>
    injection h with hop
    subst hop
    unfold fromXDRObject
    dsimp only
    rw [setSourceAccount_ok _ _ hsrc]

/-- Decoding a built `restrictAccount`: the account round-trips, the flags
decode to their parsed numeric values. -/
theorem restrictAccount_fromXDRObject (opts : RestrictAccountOpts) (op : XdrOperation)
    (h : restrictAccount opts = .ok op) :
    fromXDRObject op =
      { type := "restrictAccount", source := canonAddr opts.source,
        account := some opts.account,
        clearFlags := parsedUIntValue opts.clearFlags,
        setFlags := parsedUIntValue opts.setFlags } := by
  unfold restrictAccount at h
  split at h
  next => exact absurd h (by simp)
  next cf hcf =>
    split at h
    next => exact absurd h (by simp)
    next sf hsf =>
      split at h
      next => exact absurd h (by simp)
      next hacct =>
        split at h
        next => exact absurd h (by simp)
        next src hsrc =>
          injection h with hop
          subst hop
          rw [Bool.not_eq_true', Bool.not_eq_false] at hacct
          unfold fromXDRObject
          dsimp only
          rw [setSourceAccount_ok _ _ hsrc, encode_decode_valid _ hacct]
          rw [(checkUnsignedIntValue_ok _ _ _ _ hcf).1, (checkUnsignedIntValue_ok _ _ _ _ hsf).1]

/-- What a successful ed25519 signer branch guarantees. -/
theorem processEd25519_ok (s : SignerOpts) (k : Option XdrSignerKey) (c : Nat)
    (h : processEd25519 s = .ok (k, c)) :
    (truthy s.ed25519PublicKey = true ∧ c = 1 ∧
      ∃ e, s.ed25519PublicKey = .str e ∧ isValidEd25519PublicKey e = true ∧
        k = some (.ed25519 (decodeEd25519PublicKey e))) ∨
    (truthy s.ed25519PublicKey = false ∧ k = none ∧ c = 0) := by
  unfold processEd25519 at h
  split at h
  next ht =>
    split at h
    next e he =>
      split at h
      next hv =>
        injection h with h
        injection h with h1 h2
        exact Or.inl ⟨ht, h2.symm, e, he, hv, h1.symm⟩
      next => exact absurd h (by simp)
    next => exact absurd h (by simp)
  next ht =>
    injection h with h
    injection h with h1 h2
    exact Or.inr ⟨Bool.not_eq_true _ ▸ eq_false_of_ne_true ht, h1.symm, h2.symm⟩

/-- What a successful preAuthTx signer branch guarantees: the other fields
are untouched, and either the field was truthy and contributed a 32-byte
key, or it was falsy and contributed nothing. -/
theorem processPreAuthTx_ok (s : SignerOpts) (k : Option XdrSignerKey) (c : Nat)
    (s2 : SignerOpts) (h : processPreAuthTx s = (.ok (k, c), s2)) :
    s2.ed25519PublicKey = s.ed25519PublicKey ∧ s2.sha256Hash = s.sha256Hash ∧
    s2.weight = s.weight ∧ s2.signerType = s.signerType ∧
    ((truthy s.preAuthTx = true ∧ c = 1 ∧
       ∃ b, k = some (.preAuthTx b) ∧
         (match s.preAuthTx with
          | .str hx => some (hexDecodeStr hx)
          | .buf bb => some bb
          | _ => none) = some b) ∨
     (truthy s.preAuthTx = false ∧ k = none ∧ c = 0)) := by
  unfold processPreAuthTx at h
  split at h
  next ht =>
    split at h
    next hx hhx =>
      split at h
      next hlen =>
        injection h with h hs2
        injection h with h
        injection h with h1 h2
        subst hs2
        exact ⟨rfl, rfl, rfl, rfl, Or.inl ⟨ht, h2.symm, hexDecodeStr hx, h1.symm, rfl⟩⟩
      next => exact absurd h (by simp)
    next b hb =>
      split at h
      next hlen =>
        injection h with h hs2
        injection h with h
        injection h with h1 h2
        subst hs2
        exact ⟨rfl, rfl, rfl, rfl, Or.inl ⟨ht, h2.symm, b, h1.symm, rfl⟩⟩
      next => exact absurd h (by simp)
    next => exact absurd h (by simp)
  next ht =>
    injection h with h hs2
    injection h with h
    injection h with h1 h2
    subst hs2
    exact ⟨rfl, rfl, rfl, rfl,
      Or.inr ⟨Bool.not_eq_true _ ▸ eq_false_of_ne_true ht, h1.symm, h2.symm⟩⟩

/-- What a successful sha256Hash signer branch guarantees, like the
preAuthTx branch. -/
theorem processSha256_ok (s : SignerOpts) (k : Option XdrSignerKey) (c : Nat)
    (s2 : SignerOpts) (h : processSha256 s = (.ok (k, c), s2)) :
    s2.ed25519PublicKey = s.ed25519PublicKey ∧ s2.preAuthTx = s.preAuthTx ∧
    s2.weight = s.weight ∧ s2.signerType = s.signerType ∧
    ((truthy s.sha256Hash = true ∧ c = 1 ∧
       ∃ b, k = some (.hashX b) ∧
         (match s.sha256Hash with
          | .str hx => some (hexDecodeStr hx)
          | .buf bb => some bb
          | _ => none) = some b) ∨
     (truthy s.sha256Hash = false ∧ k = none ∧ c = 0)) := by
  unfold processSha256 at h
  split at h
  next ht =>
    split at h
    next hx hhx =>
      split at h
      next hlen =>
        injection h with h hs2
        injection h with h
        injection h with h1 h2
        subst hs2
        exact ⟨rfl, rfl, rfl, rfl, Or.inl ⟨ht, h2.symm, hexDecodeStr hx, h1.symm, rfl⟩⟩
      next => exact absurd h (by simp)
    next b hb =>
      split at h
      next hlen =>
        injection h with h hs2
        injection h with h
        injection h with h1 h2
        subst hs2
        exact ⟨rfl, rfl, rfl, rfl, Or.inl ⟨ht, h2.symm, b, h1.symm, rfl⟩⟩
      next => exact absurd h (by simp)
    next => exact absurd h (by simp)
  next ht =>
    injection h with h hs2
    injection h with h
    injection h with h1 h2
    subst hs2
    exact ⟨rfl, rfl, rfl, rfl,
      Or.inr ⟨Bool.not_eq_true _ ▸ eq_false_of_ne_true ht, h1.symm, h2.symm⟩⟩

/-- What a successful signer block guarantees: the built signer decodes to
the spec's decoded-signer form, exactly one key variant was set, the
weight (if present) parsed to an integer in 0–255, and the signerType was
present and recognized. -/
theorem processSigner_ok (s : SignerOpts) (sg : XdrSigner) (s2 : SignerOpts)
    (h : processSigner s = (.ok sg, s2)) :
    decodeSigner sg = specDecodedSigner s ∧ countTruthySigner s = 1 ∧
      (s.weight = .undef ∨ ∃ q, parsedUIntValue s.weight = some q ∧ q.den = 1 ∧ 0 ≤ q ∧ q ≤ 255) ∧
      s.signerType ≠ .undef ∧ isValidSignerType s.signerType = true := by
  unfold processSigner at h
  split at h
  next => simp at h
  next weight hw =>
    split at h
    next => simp at h
    next htype =>
      split at h
      next => simp at h
      next key1 c1 h1 =>
        split at h
        next => simp at h
        next key2 c2 sig2 h2 =>
          split at h
          next => simp at h
          next key3 c3 sig3 h3 =>
            split at h
            next => simp at h
            next hcnt =>
              split at h
              next key hkey =>
                injection h with hsg hs2
                injection hsg with hsg
                subst hsg
                have hwfacts := checkUnsignedIntValue_ok _ _ _ _ hw
                simp only [Bool.or_eq_true, decide_eq_true_eq, Bool.not_eq_true',
                  not_or, Bool.not_eq_false] at htype
                obtain ⟨htype1, htype2⟩ := htype
                have he := processEd25519_ok s key1 c1 h1
                have hp := processPreAuthTx_ok s key2 c2 sig2 h2
                have hsh := processSha256_ok sig2 key3 c3 sig3 h3
                obtain ⟨hp1, hp2, hp3, hp4, hpd⟩ := hp
                obtain ⟨hq1, hq2, hq3, hq4, hqd⟩ := hsh
                rw [hp2] at hqd
                push_neg at hcnt
                have hwc : (s.weight = .undef ∨
                    ∃ q, parsedUIntValue s.weight = some q ∧ q.den = 1 ∧ 0 ≤ q ∧ q ≤ 255) := by
                  rcases hwfacts.2 with h0 | ⟨q, hq, hden, hpos, hg⟩
                  · exact Or.inl h0
                  · refine Or.inr ⟨q, ?_, hden, hpos, ?_⟩
                    · rw [← hwfacts.1, hq]
                    · have := hg weightCheckFunction rfl
                      simp [weightCheckFunction] at this
                      exact this.2
                refine ⟨?_, ?_, hwc, htype1, htype2⟩
                · rcases he with ⟨t1, hc1, e, he1, hev, hk1⟩ | ⟨t1, hk1, hc1⟩ <;>
                    rcases hpd with ⟨t2, hc2, b2, hk2, hb2⟩ | ⟨t2, hk2, hc2⟩ <;>
                    rcases hqd with ⟨t3, hc3, b3, hk3, hb3⟩ | ⟨t3, hk3, hc3⟩ <;>
                      subst hc1 <;> subst hc2 <;> subst hc3 <;> try omega
                  · subst hk1; subst hk2; subst hk3
                    simp only [Option.orElse] at hkey
                    injection hkey with hkey
                    subst hkey
                    rw [he1] at t1
                    simp only [decodeSigner, specDecodedSigner, t1, t2, t3, he1,
                      if_true, if_false, Bool.false_eq_true]
                    rw [encode_decode_valid e hev, hwfacts.1]
                  · subst hk1; subst hk2; subst hk3
                    simp only [Option.orElse] at hkey
                    injection hkey with hkey
                    subst hkey
                    simp only [decodeSigner, specDecodedSigner, t1, t2, t3,
                      if_true, if_false, Bool.false_eq_true]
                    rw [hb2, hwfacts.1]
                  · subst hk1; subst hk2; subst hk3
                    simp only [Option.orElse] at hkey
                    injection hkey with hkey
                    subst hkey
                    simp only [decodeSigner, specDecodedSigner, t1, t2, t3,
                      if_true, if_false, Bool.false_eq_true]
                    rw [hb3, hwfacts.1]
                · rcases he with ⟨t1, hc1, e, he1, hev, hk1⟩ | ⟨t1, hk1, hc1⟩ <;>
                    rcases hpd with ⟨t2, hc2, b2, hk2, hb2⟩ | ⟨t2, hk2, hc2⟩ <;>
                    rcases hqd with ⟨t3, hc3, b3, hk3, hb3⟩ | ⟨t3, hk3, hc3⟩ <;>
                      simp [countTruthySigner, t1, t2, t3] <;> omega
              next => simp at h

/-- The signer step on the whole record: a success decodes to the
spec-side signer derived from the original (unmutated) options. -/
theorem processSignerOpt_ok (opts : SetOptionsOpts) (sgr : Option XdrSigner)
    (opts2 : SetOptionsOpts) (h : processSignerOpt opts = (.ok sgr, opts2)) :
    sgr.map decodeSigner = opts.signer.map specDecodedSigner := by
  unfold processSignerOpt at h
  split at h
  next hnone =>
    injection h with h1 h2
    injection h1 with h1
    subst h1
    rw [hnone]
    rfl
  next s hs =>
    split at h
    next => simp at h
    next sg s2 hps =>
      injection h with h1 h2
      injection h1 with h1
      subst h1
      rw [hs]
      show some (decodeSigner sg) = some (specDecodedSigner s)
      rw [(processSigner_ok s sg s2 hps).1]

/-- Full inversion of a successful `setOptions`: the signer step succeeded,
and the built operation decodes to the options' spec-side image (addresses
canonicalized, integer fields parsed, the signer in decoded form). -/
theorem setOptionsRun_ok_inv (opts : SetOptionsOpts) (op : XdrOperation)
    (h : (setOptionsRun opts).1 = .ok op) :
    (∃ sgr opts2, processSignerOpt opts = (.ok sgr, opts2)) ∧
    fromXDRObject op =
      { type := "setOptions", source := canonAddr opts.source,
        inflationDest := canonAddr opts.inflationDest,
        clearFlags := parsedUIntValue opts.clearFlags,
        setFlags := parsedUIntValue opts.setFlags,
        masterWeight := parsedUIntValue opts.masterWeight,
        lowThreshold := parsedUIntValue opts.lowThreshold,
        medThreshold := parsedUIntValue opts.medThreshold,
        highThreshold := parsedUIntValue opts.highThreshold,
        homeDomain := opts.homeDomain,
        signer := opts.signer.map specDecodedSigner } := by
  unfold setOptionsRun at h
  split at h
  next => simp at h
  next inflationDest hinfl =>
    split at h
    next => simp at h
    next cf hcf =>
      split at h
      next => simp at h
      next sf hsf =>
        split at h
        next => simp at h
        next mw hmw =>
          split at h
          next => simp at h
          next lt_ hlt =>
            split at h
            next => simp at h
            next mt hmt =>
              split at h
              next => simp at h
              next ht hht =>
                split at h
                next => simp at h
                next hhd =>
                  split at h
                  next => simp at h
                  next sgr opts2 hsgr =>
                    split at h
                    next => simp at h
                    next src hsrc =>
                      dsimp only at h
                      injection h with hop
                      subst hop
                      refine ⟨⟨sgr, opts2, hsgr⟩, ?_⟩
                      unfold fromXDRObject
                      dsimp only
                      rw [setSourceAccount_ok _ _ hsrc,
                        checkOptionalAddress_ok _ _ _ hinfl,
                        (checkUnsignedIntValue_ok _ _ _ _ hcf).1,
                        (checkUnsignedIntValue_ok _ _ _ _ hsf).1,
                        (checkUnsignedIntValue_ok _ _ _ _ hmw).1,
                        (checkUnsignedIntValue_ok _ _ _ _ hlt).1,
                        (checkUnsignedIntValue_ok _ _ _ _ hmt).1,
                        (checkUnsignedIntValue_ok _ _ _ _ hht).1,
                        processSignerOpt_ok _ _ _ hsgr]

/-- Claim C1: `Operation.isValidAmount(value, allowZero)` returns true if
and only if `value` is a string representing a non-negative decimal numeral
(no minus sign) with at most 7 fractional digits whose value times
10,000,000 is at most 9223372036854775807, finite and non-NaN, and non-zero
unless `allowZero`; in particular `isValidAmount("922337203685.4775807")`
is true, `isValidAmount("922337203685.4775808")` is false,
`isValidAmount("0")` is false by default and true with `allowZero = true`,
`isValidAmount("0.12345678")` is false, and `isValidAmount(100)` (a
number) is false. -/
theorem claim_C1_isValidAmount :
    (∀ (value : JSVal) (allowZero : Bool),
      isValidAmount value allowZero = specValidAmount value allowZero)
    ∧ isValidAmount (.str "922337203685.4775807") = true
    ∧ isValidAmount (.str "922337203685.4775808") = false
    ∧ isValidAmount (.str "0") = false
    ∧ isValidAmount (.str "0") true = true
    ∧ isValidAmount (.str "0.12345678") = false
    ∧ isValidAmount (.num (.fin 100)) = false :=
  ⟨isValidAmount_eq_spec, by decide, by decide, by decide, by decide, by decide, by decide⟩

/-- Claim C2, counterexample: the round-trip is not the identity on all
observable fields as stated — `settlement({amount: "0.10"})` is accepted,
but decodes to amount `"0.1"`, not the original `"0.10"`. -/
theorem claim_C2_counterexample :
    settlement { amount := .str "0.10" } = .ok settlementTenthOp
    ∧ (fromXDRObject settlementTenthOp).amount = some "0.1"
    ∧ some "0.1" ≠ some "0.10" :=
  ⟨by decide, by decide, by decide⟩

/-- Claim C2 (amended): for every operation kind and every options record
accepted by its builder, decoding the built operation yields the record's
spec-side image: address strings and names round-trip exactly, amount
strings round-trip as the canonical rendering of their decimal value
(equal to the input whenever it is already canonical), integer fields
(flags, weights, thresholds, accountType) round-trip as their parsed
numeric values, manageData values decode to their byte-buffer form, and
signer hex-string keys decode to their decoded buffers; in particular for
`payment` with destination `GCEZWKCA5VLDNRLN3RPRJMRZOX3Z6G5CHCGSNFHEYVXM3XOJMDS674JZ`
and amount "1000" the decoded record has type "payment", the same
destination, amount "1000", and the underlying wire integer equals
10000000000. -/
theorem claim_C2_roundtrip :
    (∀ (opts : CreateAccountOpts) (op : XdrOperation), createAccount opts = .ok op →
      ∃ (s : String) (q : ℚ), opts.startingBalance = .str s ∧
        opts.accountType = .num (.fin q) ∧
        fromXDRObject op =
          { type := "createAccount", source := canonAddr opts.source,
            destination := some opts.destination,
            startingBalance := some (canonicalAmount s), accountType := some q })
    ∧ (∀ (opts : PaymentOpts) (op : XdrOperation), emission opts = .ok op →
      ∃ s, opts.amount = .str s ∧
        fromXDRObject op =
          { type := "emission", source := canonAddr opts.source,
            destination := some opts.destination, amount := some (canonicalAmount s) })
    ∧ (∀ (opts : SettlementOpts) (op : XdrOperation), settlement opts = .ok op →
      ∃ s, opts.amount = .str s ∧
        fromXDRObject op =
          { type := "settlement", source := canonAddr opts.source,
            amount := some (canonicalAmount s) })
    ∧ (∀ (opts : PaymentOpts) (op : XdrOperation), payment opts = .ok op →
      ∃ s, opts.amount = .str s ∧
        fromXDRObject op =
          { type := "payment", source := canonAddr opts.source,
            destination := some opts.destination, asset := some (),
            amount := some (canonicalAmount s) })
    ∧ (∀ (opts : SetOptionsOpts) (op : XdrOperation), (setOptionsRun opts).1 = .ok op →
      fromXDRObject op =
        { type := "setOptions", source := canonAddr opts.source,
          inflationDest := canonAddr opts.inflationDest,
          clearFlags := parsedUIntValue opts.clearFlags,
          setFlags := parsedUIntValue opts.setFlags,
          masterWeight := parsedUIntValue opts.masterWeight,
          lowThreshold := parsedUIntValue opts.lowThreshold,
          medThreshold := parsedUIntValue opts.medThreshold,
          highThreshold := parsedUIntValue opts.highThreshold,
          homeDomain := opts.homeDomain,
          signer := opts.signer.map specDecodedSigner })
    ∧ (∀ (opts : AccountMergeOpts) (op : XdrOperation), accountMerge opts = .ok op →
      fromXDRObject op =
        { type := "accountMerge", source := canonAddr opts.source,
          destination := some opts.destination })
    ∧ (∀ (opts : ManageDataOpts) (op : XdrOperation), manageData opts = .ok op →
      ∃ n, opts.name = .str n ∧
        fromXDRObject op =
          { type := "manageData", source := canonAddr opts.source,
            name := some n, value := some (specDataValue opts.value) })
    ∧ (∀ (opts : SetFeeOpts) (op : XdrOperation), setFee opts = .ok op →
      fromXDRObject op =
        { type := "setFee", source := canonAddr opts.source,
          baseFee := some opts.baseFee })
    ∧ (∀ (opts : PaymentOpts) (op : XdrOperation), spendFee opts = .ok op →
      ∃ s, opts.amount = .str s ∧
        fromXDRObject op =
          { type := "spendFee", source := canonAddr opts.source,
            destination := some opts.destination, amount := some (canonicalAmount s) })
    ∧ (∀ (opts : RestrictAccountOpts) (op : XdrOperation), restrictAccount opts = .ok op →
      fromXDRObject op =
        { type := "restrictAccount", source := canonAddr opts.source,
          account := some opts.account,
          clearFlags := parsedUIntValue opts.clearFlags,
          setFlags := parsedUIntValue opts.setFlags })
    ∧ payment { destination := destExample, amount := .str "1000" } = .ok paymentExampleOp
    ∧ (fromXDRObject paymentExampleOp).type = "payment"
    ∧ (fromXDRObject paymentExampleOp).destination = some destExample
    ∧ (fromXDRObject paymentExampleOp).amount = some "1000"
    ∧ paymentExampleOp.body = .payment (decodeEd25519PublicKey destExample) () 10000000000 :=
  ⟨createAccount_fromXDRObject, emission_fromXDRObject, settlement_fromXDRObject,
   payment_fromXDRObject, fun opts op h => (setOptionsRun_ok_inv opts op h).2,
   accountMerge_fromXDRObject, manageData_fromXDRObject, setFee_fromXDRObject,
   spendFee_fromXDRObject, restrictAccount_fromXDRObject,
   by decide, by decide, by decide, by decide, by decide⟩

/-- Claim C2, witness: the round-trip theorem applied to the concrete
payment example. -/
theorem claim_C2_roundtrip_witness :
    fromXDRObject paymentExampleOp =
      { type := "payment", source := canonAddr none,
        destination := some destExample, asset := some (),
        amount := some (canonicalAmount "1000") } := by
  obtain ⟨s, hs, hd⟩ := claim_C2_roundtrip.2.2.2.1
    { destination := destExample, amount := .str "1000", source := none }
    paymentExampleOp (by decide)
  injection hs with hs
  rw [hs]
  exact hd

/-- A successful signer step on a record that has a signer means the
signer block itself succeeded. -/
theorem processSignerOpt_some (opts : SetOptionsOpts) (sgr : Option XdrSigner)
    (opts2 : SetOptionsOpts) (s : SignerOpts) (h : processSignerOpt opts = (.ok sgr, opts2))
    (hs : opts.signer = some s) : ∃ sg s2, processSigner s = (.ok sg, s2) := by
  unfold processSignerOpt at h
  rw [hs] at h
  dsimp only at h
  cases hps : processSigner s with
  | mk r s2 =>
    cases r with
    | error e => rw [hps] at h; simp at h
    | ok sg => exact ⟨sg, s2, rfl⟩

/-- Claim C3, counterexample: the claim requires the signer's weight to be
an unsigned integer in 0–255 for `setOptions` to succeed, but a signer
with no weight at all (one valid key variant, a recognized signerType, the
`weight` field absent) is accepted. -/
theorem claim_C3_counterexample :
    exceptIsOk (setOptionsRun noWeightSignerOpts).1 = true
    ∧ signerWeightOf noWeightSignerOpts = some JSVal.undef :=
  ⟨by decide, by decide⟩

/-- Claim C3 (amended): `Operation.setOptions` with a signer succeeds only
when exactly one of `signer.ed25519PublicKey`, `signer.sha256Hash`,
`signer.preAuthTx` is set (truthy), the signer's weight — when present —
parses to an unsigned integer in 0–255 (an absent weight is permitted),
and `signerType` is present and recognized; it fails for any input
supplying two or more of the three key-variant fields, and for zero of
them. -/
theorem claim_C3_signerExclusivity :
    (∀ (opts : SetOptionsOpts) (s : SignerOpts) (op : XdrOperation),
      opts.signer = some s → (setOptionsRun opts).1 = .ok op →
      countTruthySigner s = 1
      ∧ (s.weight = .undef ∨
          ∃ q, parsedUIntValue s.weight = some q ∧ q.den = 1 ∧ 0 ≤ q ∧ q ≤ 255)
      ∧ s.signerType ≠ .undef ∧ isValidSignerType s.signerType = true)
    ∧ (∀ (opts : SetOptionsOpts) (s : SignerOpts),
      opts.signer = some s → countTruthySigner s ≠ 1 →
      exceptIsOk (setOptionsRun opts).1 = false) := by
  constructor
  · intro opts s op hs h
    obtain ⟨⟨sgr, opts2, hsgr⟩, _⟩ := setOptionsRun_ok_inv opts op h
    obtain ⟨sg, s2, hps⟩ := processSignerOpt_some opts sgr opts2 s hsgr hs
    obtain ⟨_, hcnt, hwc, ht1, ht2⟩ := processSigner_ok s sg s2 hps
    exact ⟨hcnt, hwc, ht1, ht2⟩
  · intro opts s hs hcnt
    cases hres : (setOptionsRun opts).1 with
    | error e => simp [exceptIsOk]
    | ok op =>
      exfalso
      obtain ⟨⟨sgr, opts2, hsgr⟩, _⟩ := setOptionsRun_ok_inv opts op hres
      obtain ⟨sg, s2, hps⟩ := processSignerOpt_some opts sgr opts2 s hsgr hs
      exact hcnt (processSigner_ok s sg s2 hps).2.1

/-- Claim C3, witness: a signer supplying zero key variants is rejected. -/
theorem claim_C3_witness :
    exceptIsOk (setOptionsRun
      { signer := some { signerType := .num (.fin 0), weight := .num (.fin 1) } }).1 = false :=
  claim_C3_signerExclusivity.2 _ _ rfl (by decide)

/-- Claim C4, counterexample: the name limit is 64 characters, not 64
bytes — a 33-character name of three-byte characters (99 bytes) is
accepted — and an absent (`undefined`) value is rejected rather than
treated as deletion (only an explicit `null` deletes). -/
theorem claim_C4_counterexample :
    exceptIsOk (manageData { name := .str wideNameExample, value := .null }) = true
    ∧ (jsUtf8 wideNameExample).length = 99
    ∧ exceptIsOk (manageData { name := .str "a", value := .undef }) = false :=
  ⟨by decide, by decide, by decide⟩

/-- Claim C4 (amended): `Operation.manageData` (with no source override)
succeeds exactly when the name is a string of at most 64 characters and
the value is an explicit `null` (signalling deletion), a string of at most
64 UTF-8 bytes, or a byte buffer of at most 64 bytes; any violation makes
the builder fail with no operation constructed. -/
theorem claim_C4_manageData :
    ∀ (name value : JSVal),
      exceptIsOk (manageData { name := name, value := value, source := none }) = true
      ↔ ((∃ n, name = .str n ∧ n.length ≤ 64) ∧
        (value = .null ∨ (∃ v, value = .str v ∧ (jsUtf8 v).length ≤ 64) ∨
          (∃ b, value = .buf b ∧ b.length ≤ 64))) := by
  intro name value
  cases name with
  | str n =>
    by_cases hlen : n.length ≤ 64
    · cases value with
      | str v =>
        unfold manageData dataValueOf
        dsimp only
        rw [if_pos hlen]
        by_cases hv : (jsUtf8 v).length ≤ 64
        · rw [if_neg (by simpa using Nat.not_lt.mpr hv)]
          simp [exceptIsOk, setSourceAccount, checkOptionalAddress, hlen, hv]
        · rw [if_pos (by simpa using Nat.not_le.mp hv)]
          simp [exceptIsOk, hlen, hv]
      | buf b =>
        unfold manageData dataValueOf
        dsimp only
        rw [if_pos hlen]
        by_cases hb : b.length ≤ 64
        · rw [if_neg (by simpa using Nat.not_lt.mpr hb)]
          simp [exceptIsOk, setSourceAccount, checkOptionalAddress, hlen, hb]
        · rw [if_pos (by simpa using Nat.not_le.mp hb)]
          simp [exceptIsOk, hlen, hb]
      | null =>
        unfold manageData dataValueOf
        dsimp only
        rw [if_pos hlen]
        simp [exceptIsOk, setSourceAccount, checkOptionalAddress, hlen]
      | num q =>
        unfold manageData dataValueOf
        dsimp only
        rw [if_pos hlen]
        simp [exceptIsOk]
      | undef =>
        unfold manageData dataValueOf
        dsimp only
        rw [if_pos hlen]
        simp [exceptIsOk]
      | obj =>
        unfold manageData dataValueOf
        dsimp only
        rw [if_pos hlen]
        simp [exceptIsOk]
    · simp [manageData, hlen, exceptIsOk]
  | num q => simp [manageData, exceptIsOk]
  | buf b => simp [manageData, exceptIsOk]
  | null => simp [manageData, exceptIsOk]
  | undef => simp [manageData, exceptIsOk]
  | obj => simp [manageData, exceptIsOk]

/-- Adding one to a finite stored `BigNumber` stays finite and adds one to
its value. -/
theorem bigAdd1_fin (b : BigNum) :
    ∃ b2, bigAdd1 (.fin b) = .fin b2 ∧ bigNumQ b2 = bigNumQ b + 1 := by
  have h10 : ((10 : ℚ) ^ b.scale) ≠ 0 := by positivity
  unfold bigAdd1
  dsimp only
  cases hb : b.neg
  · simp only [Bool.false_eq_true, if_false]
    refine ⟨_, rfl, ?_⟩
    unfold bigNumQ
    rw [hb]
    dsimp only
    push_cast
    field_simp
  · simp only [if_pos rfl]
    by_cases hge : b.num ≥ 10 ^ b.scale
    · rw [if_pos hge]
      refine ⟨_, rfl, ?_⟩
      unfold bigNumQ
      rw [hb]
      dsimp only
      rw [Nat.cast_sub hge]
      push_cast
      field_simp
      ring
    · rw [if_neg hge]
      refine ⟨_, rfl, ?_⟩
      unfold bigNumQ
      rw [hb]
      dsimp only
      rw [Nat.cast_sub (le_of_not_le hge)]
      push_cast
      field_simp
      ring

/-- Value of the sequence after `k` increment calls. -/
theorem seq_iterate (k : Nat) : ∀ (a : AccountState) (b : BigNum), a.sequence = .fin b →
    seqValueQ (incrementSequenceNumber^[k] a) = some (bigNumQ b + k) := by
  induction k with
  | zero => intro a b h; simp [seqValueQ, h]
  | succ k ih =>
    intro a b h
    rw [Function.iterate_succ_apply]
    obtain ⟨b2, hb2, hv⟩ := bigAdd1_fin b
    have hseq : (incrementSequenceNumber a).sequence = .fin b2 := by
      simp [incrementSequenceNumber, h, hb2]
    rw [ih _ _ hseq, hv]
    congr 1
    push_cast
    ring

/-- Claim C5: for every Account whose sequence holds a (finite) number N,
each call to `incrementSequenceNumber` increases the sequence by exactly 1
and never decreases it or makes a non-negative sequence negative; after
`k` calls the sequence value is `N + k`.  (The claim speaks of a numeric
sequence `N`; sequences parsed from the non-finite numerals `Infinity` /
`NaN`, which the constructor also accepts, carry no number `N` to
increment.) -/
theorem claim_C5_sequenceIncrement :
    ∀ (a : AccountState) (b : BigNum), a.sequence = .fin b →
      seqValueQ (incrementSequenceNumber a) = some (bigNumQ b + 1)
      ∧ (∀ k : Nat, seqValueQ (incrementSequenceNumber^[k] a) = some (bigNumQ b + k))
      ∧ (∀ k : Nat, 0 ≤ bigNumQ b →
          ∃ q, seqValueQ (incrementSequenceNumber^[k] a) = some q ∧ bigNumQ b ≤ q ∧ 0 ≤ q) := by
  intro a b h
  have hiter : ∀ k : Nat, seqValueQ (incrementSequenceNumber^[k] a) = some (bigNumQ b + k) :=
    fun k => seq_iterate k a b h
  refine ⟨?_, hiter, ?_⟩
  · have h1 := hiter 1
    rw [Function.iterate_one] at h1
    rw [h1]
    norm_num
  · intro k hpos
    have hk : (0 : ℚ) ≤ k := Nat.cast_nonneg k
    refine ⟨bigNumQ b + k, hiter k, by linarith, by linarith⟩

/-- Claim C5, witness: incrementing the concrete account with sequence 100
yields sequence value 101. -/
theorem claim_C5_witness :
    seqValueQ (incrementSequenceNumber accountExample) = some 101 := by
  have h := (claim_C5_sequenceIncrement accountExample
    { neg := false, num := 100, scale := 0 } rfl).1
  rw [h]
  norm_num [bigNumQ]

/-- Claim C6, counterexample: construction does not require the sequence
string to be an integer — `"1.5"` is accepted — and `sequenceNumber()`
returns the canonical rendering, not the given string — `"007"` comes back
as `"7"`. -/
theorem claim_C6_counterexample :
    exceptIsOk (accountMake destExample (.str "1.5") .undef) = true
    ∧ (accountMake destExample (.str "007") .undef).map sequenceNumber = .ok "7" :=
  ⟨by decide, by decide⟩

/-- Claim C6 (amended): `Account` construction fails (throws) if and only
if the accountId is not a valid StrKey-encoded account id, or the sequence
is not a string, or the sequence string is not parseable as a decimal
number (fractional and signed numerals are accepted, not just integers);
on success `accountId()` returns the given accountId and
`sequenceNumber()` returns the canonical decimal rendering of the given
sequence (equal to it whenever the input is already canonical). -/
theorem claim_C6_accountConstruction :
    (∀ (aid : String) (sequence baseFee : JSVal),
      exceptIsOk (accountMake aid sequence baseFee) = true
      ↔ (isValidEd25519PublicKey aid = true ∧
          ∃ s, sequence = .str s ∧ (parseBigNumber s).isSome = true))
    ∧ (∀ (aid : String) (sequence baseFee : JSVal) (st : AccountState),
        accountMake aid sequence baseFee = .ok st →
        accountId st = aid ∧
        ∃ s, sequence = .str s ∧ sequenceNumber st = canonicalSequence s) := by
  constructor
  · intro aid sequence baseFee
    unfold accountMake
    by_cases hv : isValidEd25519PublicKey aid = true
    · rw [if_neg (by simp [hv])]
      cases sequence with
      | str s =>
        cases hp : parseBigNumber s with
        | none => simp [exceptIsOk, hp, hv]
        | some v => simp [exceptIsOk, hp, hv]
      | num n => simp [exceptIsOk, hv]
      | buf b => simp [exceptIsOk, hv]
      | null => simp [exceptIsOk, hv]
      | undef => simp [exceptIsOk, hv]
      | obj => simp [exceptIsOk, hv]
    · have hv2 : isValidEd25519PublicKey aid = false := by simpa using hv
      rw [if_pos (by simp [hv2])]
      simp [exceptIsOk, hv2]
  · intro aid sequence baseFee st h
    unfold accountMake at h
    split at h
    next => exact absurd h (by simp)
    next hv =>
      split at h
      next s =>
        split at h
        next v hp =>
          injection h with h
          subst h
          refine ⟨rfl, s, rfl, ?_⟩
          simp [sequenceNumber, canonicalSequence, hp]
        next => exact absurd h (by simp)
      next => exact absurd h (by simp)

/-- Claim C6, witness: the construction theorem applied to the concrete
account `(destExample, "100")`. -/
theorem claim_C6_witness :
    accountId accountParsedExample = destExample
    ∧ sequenceNumber accountParsedExample = canonicalSequence "100" := by
  obtain ⟨h1, s, hs, h2⟩ := claim_C6_accountConstruction.2 destExample (.str "100") .undef
    accountParsedExample (by decide)
  injection hs with hs
  rw [hs]
  exact ⟨h1, h2⟩

/-- A zero, negative, or non-decimal amount never validates. -/
theorem amountBad_isValidAmount (v : JSVal)
    (h : amountZeroNegativeOrNonDecimal v = true) : isValidAmount v = false := by
  rw [isValidAmount_eq_spec]
  cases v with
  | str s =>
    unfold amountZeroNegativeOrNonDecimal at h
    unfold specValidAmount
    dsimp only at h ⊢
    cases hp : parseBigNumber s with
    | none => rfl
    | some bv =>
      rw [hp] at h
      cases bv with
      | fin b =>
        dsimp only at h ⊢
        rcases Bool.or_eq_true_iff.mp h with h0 | hneg
        · have h0n : b.num = 0 := by simpa using h0
          simp [h0n]
        · simp [hneg]
      | posInf => rfl
      | negInf => rfl
      | nan => rfl
  | num n => rfl
  | buf b => rfl
  | null => rfl
  | undef => rfl
  | obj => rfl

/-- Claim C7: the builders for `emission`, `payment`, `settlement` and
`spendFee` fail for every amount that is zero, negative, or not a decimal
string, while `createAccount` accepts a startingBalance of "0" (validated
with `allowZero = true`) given a valid destination and account type; and in
every destination-taking kind among them an invalid destination makes the
builder fail (`settlement` takes no destination). -/
theorem claim_C7_amountRules :
    (∀ opts : PaymentOpts, amountZeroNegativeOrNonDecimal opts.amount = true →
      exceptIsOk (emission opts) = false ∧ exceptIsOk (payment opts) = false ∧
        exceptIsOk (spendFee opts) = false)
    ∧ (∀ opts : SettlementOpts, amountZeroNegativeOrNonDecimal opts.amount = true →
        exceptIsOk (settlement opts) = false)
    ∧ (∀ (d : String) (acct : JSVal), isValidEd25519PublicKey d = true →
        isValidAccountType acct = true →
        exceptIsOk (createAccount
          { destination := d, startingBalance := .str "0", accountType := acct }) = true)
    ∧ (∀ opts : PaymentOpts, isValidEd25519PublicKey opts.destination = false →
        exceptIsOk (emission opts) = false ∧ exceptIsOk (payment opts) = false ∧
          exceptIsOk (spendFee opts) = false)
    ∧ (∀ opts : CreateAccountOpts, isValidEd25519PublicKey opts.destination = false →
        exceptIsOk (createAccount opts) = false) := by
  refine ⟨?_, ?_, ?_, ?_, ?_⟩
  · intro opts h
    have ha := amountBad_isValidAmount _ h
    refine ⟨?_, ?_, ?_⟩
    · unfold emission
      by_cases hd : isValidEd25519PublicKey opts.destination = true
      · rw [if_neg (by simp [hd]), if_pos (by simp [ha])]; rfl
      · have hd2 : isValidEd25519PublicKey opts.destination = false := by simpa using hd
        rw [if_pos (by simp [hd2])]; rfl
    · unfold payment
      by_cases hd : isValidEd25519PublicKey opts.destination = true
      · rw [if_neg (by simp [hd]), if_pos (by simp [ha])]; rfl
      · have hd2 : isValidEd25519PublicKey opts.destination = false := by simpa using hd
        rw [if_pos (by simp [hd2])]; rfl
    · unfold spendFee
      by_cases hd : isValidEd25519PublicKey opts.destination = true
      · rw [if_neg (by simp [hd]), if_pos (by simp [ha])]; rfl
      · have hd2 : isValidEd25519PublicKey opts.destination = false := by simpa using hd
        rw [if_pos (by simp [hd2])]; rfl
  · intro opts h
    have ha := amountBad_isValidAmount _ h
    unfold settlement
    rw [if_pos (by simp [ha])]; rfl
  · intro d acct hd hacct
    have hundef : acct ≠ .undef := by
      rintro rfl
      simp [isValidAccountType] at hacct
    unfold createAccount
    rw [if_neg (by simp [hd])]
    rw [if_neg (by simp [show isValidAmount (.str "0") true = true from by decide])]
    rw [if_neg (by simp [hundef, hacct])]
    rfl
  · intro opts hd
    refine ⟨?_, ?_, ?_⟩
    · unfold emission; rw [if_pos (by simp [hd])]; rfl
    · unfold payment; rw [if_pos (by simp [hd])]; rfl
    · unfold spendFee; rw [if_pos (by simp [hd])]; rfl
  · intro opts hd
    unfold createAccount
    rw [if_pos (by simp [hd])]
    rfl

/-- Claim C7, witness: a numeric (non-string) settlement amount is
rejected, and `createAccount` with startingBalance "0" succeeds on the
concrete valid destination. -/
theorem claim_C7_witness :
    exceptIsOk (settlement { amount := .num (.fin 20) }) = false
    ∧ exceptIsOk (createAccount
        { destination := destExample, startingBalance := .str "0",
          accountType := .num (.fin 0) }) = true :=
  ⟨claim_C7_amountRules.2.1 _ (by decide),
   claim_C7_amountRules.2.2.1 destExample _ (by decide) (by decide)⟩

/-- Claim C8: `Operation._checkUnsignedIntValue` returns undefined for an
undefined input, returns the integer value for a non-negative integer
given as a number or as a numeric string (so `setOptions({setFlags: "4"})`
produces integer 4), and throws for negative, fractional, or non-finite
inputs; a string input is parsed with `parseFloat`, so a string with a
numeric prefix followed by non-numeric characters ("4x") is accepted as
its numeric prefix rather than rejected. -/
theorem claim_C8_checkUnsignedIntValue :
    (∀ (name : String) (f : Option (ℚ → Bool)), checkUnsignedIntValue name .undef f = .ok none)
    ∧ (∀ (name : String) (k : Nat), checkUnsignedIntValue name (.num (.fin k)) = .ok (some k))
    ∧ (∀ (name s : String) (q : ℚ), parseFloatJS s = .fin q → q.den = 1 → 0 ≤ q →
        checkUnsignedIntValue name (.str s) = .ok (some q))
    ∧ setOptions { setFlags := .str "4" } = .ok setFlagsExampleOp
    ∧ (fromXDRObject setFlagsExampleOp).setFlags = some 4
    ∧ (∀ (name : String) (q : ℚ), q < 0 → q.den = 1 →
        ∃ e, checkUnsignedIntValue name (.num (.fin q)) = .error e)
    ∧ (∀ (name : String) (q : ℚ), q.den ≠ 1 →
        ∃ e, checkUnsignedIntValue name (.num (.fin q)) = .error e)
    ∧ (∀ name : String,
        (∃ e, checkUnsignedIntValue name (.num .posInf) = .error e)
        ∧ (∃ e, checkUnsignedIntValue name (.num .negInf) = .error e)
        ∧ (∃ e, checkUnsignedIntValue name (.num .nan) = .error e))
    ∧ (∀ name : String, checkUnsignedIntValue name (.str "4x") = .ok (some 4)) := by
  refine ⟨?_, ?_, ?_, by decide, by decide, ?_, ?_, ?_, ?_⟩
  · intro name f
    rfl
  · intro name k
    unfold checkUnsignedIntValue
    dsimp only
    rw [if_neg (by simp), if_neg (by simp [not_lt.mpr (Nat.cast_nonneg (α := ℚ) k)])]
  · intro name s q hq hden hpos
    unfold checkUnsignedIntValue
    dsimp only
    rw [hq]
    dsimp only
    rw [if_neg (by simp [hden]), if_neg (not_lt.mpr hpos)]
  · intro name q hlt hden
    unfold checkUnsignedIntValue
    dsimp only
    rw [if_neg (by simp [hden]), if_pos hlt]
    exact ⟨_, rfl⟩
  · intro name q hden
    unfold checkUnsignedIntValue
    dsimp only
    rw [if_pos hden]
    exact ⟨_, rfl⟩
  · intro name
    exact ⟨⟨_, rfl⟩, ⟨_, rfl⟩, ⟨_, rfl⟩⟩
  · intro name
    unfold checkUnsignedIntValue
    dsimp only
    rw [show parseFloatJS "4x" = .fin 4 from by decide]
    dsimp only
    rw [if_neg (by norm_num), if_neg (by norm_num)]

/-- Claim C8, witness: the numeric-string case applied to "10". -/
theorem claim_C8_witness :
    checkUnsignedIntValue "test" (.str "10") = .ok (some 10) :=
  claim_C8_checkUnsignedIntValue.2.2.1 "test" "10" 10 (by decide) (by decide) (by norm_num)

/-- Claim C9: `Operation.setOptions` is not free of side effects on its
input — with a hex-string `preAuthTx` the builder overwrites the caller's
field in place with the decoded 32-byte buffer before validating, so even
a failing call (here: two key variants supplied) leaves the options record
changed. -/
theorem claim_C9_setOptionsMutation :
    exceptIsOk (setOptionsRun mutationExampleOpts).1 = false
    ∧ signerPreAuthOf mutationExampleOpts = some (.str preAuthHexExample)
    ∧ signerPreAuthOf (setOptionsRun mutationExampleOpts).2 =
        some (.buf (hexDecodeStr preAuthHexExample))
    ∧ (hexDecodeStr preAuthHexExample).length = 32
    ∧ (setOptionsRun mutationExampleOpts).2 ≠ mutationExampleOpts :=
  ⟨by decide, by decide, by decide, by decide, by decide⟩

/-- Claim C10: `incrementSequenceNumber` modifies only the sequence — for
every account, `accountId()` and `baseFeeValue()` are unchanged by any
number of increment calls. -/
theorem claim_C10_incrementFrame :
    ∀ (a : AccountState) (k : Nat),
      accountId (incrementSequenceNumber^[k] a) = accountId a
      ∧ baseFeeValue (incrementSequenceNumber^[k] a) = baseFeeValue a := by
  intro a k
  induction k with
  | zero => exact ⟨rfl, rfl⟩
  | succ k ih =>
    rw [Function.iterate_succ_apply']
    exact ⟨ih.1, ih.2⟩

end AtticBase
